import Mathlib

/-!
# SmartIR — verification of the command-resolution and state-reconciliation core

Shallow embedding of `custom_components/smartir` (helpers, fan, media player,
light, and the shared `SmartIR` entity base) together with proofs about the
embedded definitions.  Numbers are modelled with `Int`/`ℚ`, Python `None`
with `Option`, uncaught Python exceptions with `Option.none` results, and the
external IR controller with an oracle `Nat → Bool` giving the outcome of each
successive `controller.send` call.
-/

/- ============================================================
   smartir_helpers.py
   ============================================================ -/

/-- Python's `round` on exact rationals: round half to even (banker's
rounding), as `round` behaves on floats.  Embeds the rounding used by
`precision_round` in `smartir_helpers.py`. -/
def roundHalfEven (x : ℚ) : ℤ :=
  let f := ⌊x⌋
  let r := x - (f : ℚ)
  if r < 1/2 then f
  else if 1/2 < r then f + 1
  else if f % 2 = 0 then f else f + 1

/-- Python `round(x, 1)` — round to one decimal place. -/
def pyRoundTo1 (x : ℚ) : ℚ := (roundHalfEven (x * 10) : ℚ) / 10

/-- Embedding of `smartir_helpers.precision_round(number, precision)`, translated clause by
clause; `none` is Python's `None` return.  Python's `int(precision)` for
`precision > 1` truncates toward zero, i.e. is the floor on positive input. -/
def precision_round (x : ℚ) (p : ℚ) : Option ℚ :=
  if p = 1/10 then some (pyRoundTo1 x)
  else if p = 1/2 then some (pyRoundTo1 (x * 2 / 2))
  else if p = 1 then some ((roundHalfEven x : ℚ))
  else if 1 < p then some (((roundHalfEven (x / (⌊p⌋ : ℚ)) * ⌊p⌋ : ℤ) : ℚ))
  else none

/-- Loop body of `smartir_helpers.closest_match_index`.  `value` is the Python
argument (`none` = Python `None`), `len` the length of the full list, `prev`
the `prev_val` variable, `idx` the current enumeration index.  The result is
the returned index; a `none` result models the uncaught `TypeError` raised by
`value - prev_val` when `value` is `None`. -/
def cmiGo (value : Option Int) (len : Nat) : Option Int → Nat → List Int → Option Int
  | _, _, [] => some ((len : Int) - 1)
  | prev, idx, entry :: rest =>
      if value.getD 0 < entry then
        match prev with
        | none => some (idx : Int)
        | some p =>
            match value with
            | none => none
            | some v => if v - p < entry - v then some ((idx : Int) - 1) else some (idx : Int)
      else cmiGo value len (some entry) (idx + 1) rest

/-- Embedding of `smartir_helpers.closest_match_index(value, list)`.  `entry > (value or 0)`
is `value.getD 0 < entry`; the fall-through return is `len(list) - 1`. -/
def closest_match_index (value : Option Int) (l : List Int) : Option Int :=
  cmiGo value l.length none 0 l

/-- Index of the first list entry strictly greater than `v`, the way the spec
describes the scan of `closest_match_index`. -/
def firstExceedIdx (v : Int) : List Int → Option Nat
  | [] => none
  | e :: rest => if v < e then some 0 else (firstExceedIdx v rest).map (· + 1)

/-- The spec's description of `closest_match_index` for a numeric value
(spec §4.2): the index `i` of the first entry strictly greater than `v`,
unless the previous entry `scale[i-1]` is strictly closer in absolute
distance, in which case `i - 1`; on an exact tie the higher index wins; if no
entry exceeds `v`, `len(scale) - 1`.  Stated independently of the scan so the
equivalence with the code is a real theorem. -/
def closestMatchIndexSpec (v : Int) (scale : List Int) : Int :=
  match firstExceedIdx v scale with
  | none => (scale.length : Int) - 1
  | some 0 => 0
  | some (i + 1) =>
      if |v - scale.getD i 0| < |scale.getD (i + 1) 0 - v| then (i : Int) else (i : Int) + 1

/- ============================================================
   Common data model: command store and controller oracle
   ============================================================ -/

/-- A value of the nested command store (`device_data["commands"]` and its
sub-dicts): a string IR code, a nested dict, or any other JSON value
(`None`, numbers, lists), which the code's `isinstance` checks reject. -/
inductive CmdNode where
  | leaf : String → CmdNode
  | dict : List (String × CmdNode) → CmdNode
  | null : CmdNode

/-- Python `d[k]` / `k in d` on an embedded dict, as an association-list
lookup. -/
def lookupKey (k : String) : List (String × CmdNode) → Option CmdNode
  | [] => none
  | (k2, v) :: rest => if k = k2 then some v else lookupKey k rest

/-- Python `==` between a known string and an arbitrary command-store value
(`self._commands["on"] == self._commands["off"]` in `media_player.py`):
true only when the other value is the same string. -/
def CmdNode.eqStr (s : String) : CmdNode → Bool
  | CmdNode.leaf t => s == t
  | _ => false

/- ============================================================
   smartir_entity.py — SmartIR base: power sensor handling
   ============================================================ -/

/-- The `SmartIR` base state relevant to the power-sensor machinery:
`_state`, `_on_by_remote`, `_power_sensor_check_expect`, and whether
`_power_sensor_check_cancel` currently holds a pending timer handle. -/
structure EntSt where
  state : String
  onByRemote : Bool
  checkExpect : Option String
  checkActive : Bool
deriving DecidableEq

/-- Embedding of `SmartIR._async_power_sensor_check_schedule(state)`: cancel and discard a
pending check if one exists, then store the expectation and arm the timer.
(The `async_call_later` handle is modelled by the `checkActive` flag.) -/
def powerSensorCheckSchedule (target : String) (st : EntSt) : EntSt :=
  let st1 :=
    if st.checkActive then { st with checkActive := false, checkExpect := none } else st
  { st1 with checkExpect := some target, checkActive := true }

/-- The inner `_async_power_sensor_check` callback firing: `observed` is
`getattr(self.hass.states.get(self._power_sensor), "state", None)`.  Returns
the new state and whether `async_write_ha_state` was called. -/
def powerSensorCheckFire (observed : Option String) (st : EntSt) : EntSt × Bool :=
  if (st.checkExpect = some "on" ∨ st.checkExpect = some "off") ∧
      (observed = some "on" ∨ observed = some "off") ∧ st.checkExpect ≠ observed then
    ({ st with checkActive := false, checkExpect := none, state := observed.getD "" }, true)
  else
    ({ st with checkActive := false, checkExpect := none }, false)

/-- Embedding of `SmartIR._async_power_sensor_changed(event)`: `oldR`/`newR` are the
`.state` strings of the event's old/new sensor states (`none` when the
corresponding state object is `None`).  The `_async_update_hvac_action` hook
called by the handler lives in the climate platform (outside this modelled
core) and has no effect on the fields modelled here.  Returns the new state
and whether `async_write_ha_state` was called. -/
def powerSensorChanged (oldR newR : Option String) (st : EntSt) : EntSt × Bool :=
  match newR with
  | none => (st, false)
  | some n =>
      if oldR = some n then (st, false)
      else
        let st1 :=
          if n = "on" ∧ st.state ≠ "on" then
            { st with state := "on", onByRemote := true }
          else if n = "off" then
            let stb := { st with onByRemote := false }
            if stb.state ≠ "off" then { stb with state := "off" } else stb
          else st
        (st1, true)

/- ============================================================
   fan.py — SmartIRFan._send_command
   ============================================================ -/

/-- The `SmartIRFan` state: `_state`, `_speed`, `_current_direction`,
`_oscillating`, `_on_by_remote`, plus the inherited check fields. -/
structure FanSt where
  state : String
  speed : String
  direction : String
  oscillating : Bool
  onByRemote : Bool
  checkExpect : Option String
  checkActive : Bool
deriving DecidableEq

/-- The schedule call `_async_power_sensor_check_schedule` as invoked on the fan's state. -/
def fanScheduleCheck (st : FanSt) (target : String) : FanSt :=
  let st1 :=
    if st.checkActive then { st with checkActive := false, checkExpect := none } else st
  { st1 with checkExpect := some target, checkActive := true }

/-- Result of a fan `_send_command` call: final state, the payloads passed to
`controller.send`, the new controller call counter, and whether the state
update + `async_write_ha_state` lines were reached. -/
structure FanRes where
  st : FanSt
  trace : List CmdNode
  calls : Nat
  notified : Bool

/-- The `if self._power_sensor and self._state != state` guard at the top of
`_send_command`, scheduling a verification check before the try block. -/
def fanSchedulePhase (powerSensor : Bool) (st : FanSt) (target : String) : FanSt :=
  if powerSensor ∧ st.state ≠ target then fanScheduleCheck st target else st

/-- Which IR code (if any) the try block of `_send_command` sends: the `off`
code, the `oscillate` code, or `self._commands[direction][speed]`; `none`
covers every "Missing device IR code" early return. -/
def fanAttempt (cmds : List (String × CmdNode)) (target speed direction : String)
    (oscillate : Bool) : Option CmdNode :=
  if target = "off" then
    lookupKey "off" cmds
  else if oscillate then
    lookupKey "oscillate" cmds
  else
    match lookupKey direction cmds with
    | some (CmdNode.dict d) => lookupKey speed d
    | _ => none

/-- Embedding of `SmartIRFan._send_command(state, speed, direction, oscillate)`.  `ctrl n`
is the outcome of the `n`-th `controller.send` call of the run (`false` =
the call raises).  A raise is caught by the `except` clause, skipping the
state-update block; a missing IR code logs and returns early, likewise
skipping it. -/
def fanSendCommand (cmds : List (String × CmdNode)) (powerSensor : Bool)
    (ctrl : Nat → Bool) (st : FanSt) (target speed direction : String)
    (oscillate : Bool) (calls : Nat) : FanRes :=
  match fanAttempt cmds target speed direction oscillate with
  | none =>
      { st := fanSchedulePhase powerSensor st target, trace := [], calls := calls,
        notified := false }
  | some payload =>
      if ctrl calls then
        { st := { fanSchedulePhase powerSensor st target with
                  state := target, speed := speed, onByRemote := false,
                  direction := direction, oscillating := oscillate },
          trace := [payload], calls := calls + 1, notified := true }
      else
        { st := fanSchedulePhase powerSensor st target, trace := [payload],
          calls := calls + 1, notified := false }

/- ============================================================
   media_player.py — SmartIRMediaPlayer._send_command
   ============================================================ -/

/-- The `SmartIRMediaPlayer` state: `_state`, `_source`, `_on_by_remote`, plus the
inherited check fields.  (`_source` is mutated by `async_select_source` /
`async_play_media` before `_send_command` runs, never inside it.) -/
structure MpSt where
  state : String
  source : Option String
  onByRemote : Bool
  checkExpect : Option String
  checkActive : Bool
deriving DecidableEq

/-- The schedule call `_async_power_sensor_check_schedule` as invoked on the media player's
state. -/
def mpScheduleCheck (st : MpSt) (target : String) : MpSt :=
  let st1 :=
    if st.checkActive then { st with checkActive := false, checkExpect := none } else st
  { st1 with checkExpect := some target, checkActive := true }

/-- How one `_send_command` run terminates: full success, an early `return`
after a "Missing device IR code" log, or a caught exception (a raising
`controller.send`, or a `KeyError` on a missing `on`/`off` code). -/
inductive SendFlow where
  | ok | ret | exc
deriving DecidableEq

/-- The walk of one key path over the command store (`media_player.py`
`_send_command`, the `for idx in range(len(keys))` loop): at each key the
current node must be a dict containing the key; the final key's value must
be a string (the code to send); a non-final key's value must be a dict to
descend into; every other case logs "Missing device IR code for '<key>'"
and returns.  `Except.error k` carries the key named by that diagnostic. -/
def resolvePath (data : CmdNode) : List String → Except String (Option String)
  | [] => Except.ok none
  | [k] =>
      match data with
      | CmdNode.dict entries =>
          match lookupKey k entries with
          | some (CmdNode.leaf code) => Except.ok (some code)
          | some _ => Except.error k
          | none => Except.error k
      | _ => Except.error k
  | k :: k2 :: rest =>
      match data with
      | CmdNode.dict entries =>
          match lookupKey k entries with
          | some (CmdNode.dict d) => resolvePath (CmdNode.dict d) (k2 :: rest)
          | some _ => Except.error k
          | none => Except.error k
      | _ => Except.error k

/-- The `for keys in commands` loop of `_send_command`: resolve each path from
the top of the command store, send the resolved code, abort with `ret` on a
resolution failure and with `exc` on a raising `controller.send`. -/
def mpRunPaths (cmds : List (String × CmdNode)) (ctrl : Nat → Bool) :
    List (List String) → Nat → List CmdNode → SendFlow × Nat × List CmdNode
  | [], calls, tr => (SendFlow.ok, calls, tr)
  | keys :: rest, calls, tr =>
      match resolvePath (CmdNode.dict cmds) keys with
      | Except.error _ => (SendFlow.ret, calls, tr)
      | Except.ok none => mpRunPaths cmds ctrl rest calls tr
      | Except.ok (some code) =>
          if ctrl calls then
            mpRunPaths cmds ctrl rest (calls + 1) (tr ++ [CmdNode.leaf code])
          else
            (SendFlow.exc, calls + 1, tr ++ [CmdNode.leaf code])

/-- The on/off part of `_send_command`: evaluate the "identical on/off codes
and already in requested state" short-circuit condition (whose own
evaluation of `self._commands[sendKey]` can raise `KeyError`), then either
skip or send `self._commands[sendKey]` (raising `KeyError` when absent).
`checkKey`/`sendKey` are `"on"`/`"off"` for a power-off request and swapped
for power-on; `stateMatches` is the `self._state == STATE_x` conjunct. -/
def mpPowerPhase (cmds : List (String × CmdNode)) (ctrl : Nat → Bool)
    (checkKey sendKey : String) (stateMatches : Bool) (calls : Nat) :
    SendFlow × Nat × List CmdNode :=
  match lookupKey checkKey cmds with
  | some (CmdNode.leaf code) =>
      match lookupKey sendKey cmds with
      | none => (SendFlow.exc, calls, [])
      | some sendVal =>
          if CmdNode.eqStr code sendVal ∧ stateMatches then
            (SendFlow.ok, calls, [])
          else if ctrl calls then (SendFlow.ok, calls + 1, [sendVal])
          else (SendFlow.exc, calls + 1, [sendVal])
  | _ =>
      match lookupKey sendKey cmds with
      | none => (SendFlow.exc, calls, [])
      | some sendVal =>
          if ctrl calls then (SendFlow.ok, calls + 1, [sendVal])
          else (SendFlow.exc, calls + 1, [sendVal])

/-- Result of a media-player `_send_command` call. -/
structure MpRes where
  st : MpSt
  trace : List CmdNode
  calls : Nat
  flow : SendFlow
  notified : Bool

/-- The `if self._power_sensor and self._state != state` guard at the top of
the media player's `_send_command`, scheduling a verification check before
the try block. -/
def mpSchedulePhase (powerSensor : Bool) (st : MpSt) (target : String) : MpSt :=
  if powerSensor ∧ st.state ≠ target then mpScheduleCheck st target else st

/-- The tail of `_send_command` after all sends: on the fully successful flow
run the `self._state = state` / `self._on_by_remote = False` /
`async_write_ha_state` lines, otherwise (early return or caught exception)
leave the state as the scheduling guard left it. -/
def mpFinish (powerSensor : Bool) (st : MpSt) (target : String)
    (r : SendFlow × Nat × List CmdNode) : MpRes :=
  match r with
  | (SendFlow.ok, c, t) =>
      { st := { mpSchedulePhase powerSensor st target with
                state := target, onByRemote := false },
        trace := t, calls := c, flow := SendFlow.ok, notified := true }
  | (f, c, t) =>
      { st := mpSchedulePhase powerSensor st target, trace := t, calls := c,
        flow := f, notified := false }

/-- The power-on side of `_send_command`: when the `on` code went through,
run the `for keys in commands` path loop before finishing. -/
def mpOnTail (cmds : List (String × CmdNode)) (powerSensor : Bool) (ctrl : Nat → Bool)
    (st : MpSt) (target : String) (paths : List (List String))
    (r : SendFlow × Nat × List CmdNode) : MpRes :=
  match r with
  | (SendFlow.ok, c1, t1) =>
      mpFinish powerSensor st target (mpRunPaths cmds ctrl paths c1 t1)
  | (f1, c1, t1) =>
      { st := mpSchedulePhase powerSensor st target, trace := t1, calls := c1,
        flow := f1, notified := false }

/-- Embedding of `SmartIRMediaPlayer._send_command(state, commands)` proper: after the
scheduling guard, run the on/off phase and (for power-on only) the path
loop; only the fully successful flow reaches the state-update lines. -/
def mpSendCommand (cmds : List (String × CmdNode)) (powerSensor : Bool)
    (ctrl : Nat → Bool) (st : MpSt) (target : String)
    (paths : List (List String)) (calls : Nat) : MpRes :=
  if target = "off" then
    mpFinish powerSensor st target
      (mpPowerPhase cmds ctrl "on" "off" (st.state == "off") calls)
  else
    mpOnTail cmds powerSensor ctrl st target paths
      (mpPowerPhase cmds ctrl "off" "on" (st.state == "on") calls)

/- ============================================================
   light.py — SmartIRLight
   ============================================================ -/

/-- Per-device configuration of `SmartIRLight` fixed at construction:
`_commands`, `_brightnesses`, `_colortemps`, `_support_brightness`,
`_attr_supported_color_modes` (as mode strings), and whether a power sensor
is configured. -/
structure LightCfg where
  commands : List (String × CmdNode)
  brightnesses : List Int
  colortemps : List Int
  supportBrightness : Bool
  colorModes : List String
  powerSensor : Bool

/-- The `SmartIRLight` mutable state: `_state`, `_on_by_remote`, `_brightness`,
`_colortemp`, plus the inherited check fields. -/
structure LightSt where
  state : String
  onByRemote : Bool
  brightness : Option Int
  colortemp : Option Int
  checkExpect : Option String
  checkActive : Bool
deriving DecidableEq

/-- The `**params` dict of `async_turn_on`: each key is either absent
(outer `none`) or present with a possibly-`None` value. -/
structure LightParams where
  colortempParam : Option (Option Int)
  brightnessParam : Option (Option Int)
deriving DecidableEq

/-- Python `l[i]` on a list of ints: non-negative indices in range, negative
indices wrap from the end, anything else raises `IndexError` (`none`). -/
def pyIndex (l : List Int) (i : Int) : Option Int :=
  if 0 ≤ i ∧ i < (l.length : Int) then some (l.getD i.toNat 0)
  else if -((l.length : Int)) ≤ i ∧ i < 0 then some (l.getD (l.length - (-i).toNat) 0)
  else none

/-- The `for _ in range(count)` loop of `send_remote_command`: each iteration
calls `controller.send(payload)`; a raising call (`ctrl` returns `false`)
ends the loop (the exception is caught and only logged).  Returns the new
call counter and the appended trace of attempted sends. -/
def sendLoop (ctrl : Nat → Bool) (payload : CmdNode) : Nat → Nat → List CmdNode → Nat × List CmdNode
  | 0, calls, tr => (calls, tr)
  | Nat.succ n, calls, tr =>
      if ctrl calls then sendLoop ctrl payload n (calls + 1) (tr ++ [payload])
      else (calls + 1, tr ++ [payload])

/-- Embedding of `SmartIRLight.send_remote_command(remote_cmd, count)`: under the device
lock, clear `_on_by_remote`, then try `count` sends; exceptions are caught
and logged, never propagated. -/
def lightSendRemote (ctrl : Nat → Bool) (st : LightSt) (payload : CmdNode) (count : Nat)
    (calls : Nat) (tr : List CmdNode) : LightSt × Nat × List CmdNode :=
  let st1 := { st with onByRemote := false }
  let r := sendLoop ctrl payload count calls tr
  (st1, r.1, r.2)

/-- Embedding of `SmartIRLight.send_command(cmd, count)`: unknown commands log and return
without sending; otherwise forward the stored payload to
`send_remote_command`. -/
def lightSendCommand (cfg : LightCfg) (ctrl : Nat → Bool) (st : LightSt) (cmd : String)
    (count : Nat) (calls : Nat) (tr : List CmdNode) : LightSt × Nat × List CmdNode :=
  match lookupKey cmd cfg.commands with
  | none => (st, calls, tr)
  | some payload => lightSendRemote ctrl st payload count calls tr

/-- The `CMD_x in self._commands and isinstance(self._commands[CMD_x], dict)
and final in self._commands[CMD_x]` test of `async_turn_on`, returning the
found command on success. -/
def directLookup (cmds : List (String × CmdNode)) (key finalStr : String) : Option CmdNode :=
  match lookupKey key cmds with
  | some (CmdNode.dict d) => lookupKey finalStr d
  | _ => none

/-- The relative-step plan of `async_turn_on` (lines 197–214 and 248–265 of
`light.py`): `steps = new - old`; negative steps mean the decreasing command
and are made absolute; nothing is sent when `steps == 0`; when the target
index is a scale boundary the step count is overridden to the scale length.
`some (dec, n)` means "send the decrease (when `dec`) or increase command
`n` times"; `none` means the `steps > 0` guard failed and nothing happens. -/
def stepPlan (scaleLen : Nat) (oldIdx newIdx : Int) : Option (Bool × Nat) :=
  let delta := newIdx - oldIdx
  let dec := decide (delta < 0)
  let steps := delta.natAbs
  if 0 < steps then
    some (dec, if newIdx = (scaleLen : Int) - 1 ∨ newIdx = 0 then scaleLen else steps)
  else none

/-- The tail of the color-temperature block once `final_color_temp` is known:
either a found direct command, or the relative-step plan (nothing when
`steps == 0`). -/
def lightCTFinal (cfg : LightCfg) (ctrl : Nat → Bool) (st : LightSt)
    (oldIdx newIdx finalEntry : Int) (calls : Nat) (tr : List CmdNode) :
    Option (LightSt × Nat × List CmdNode) :=
  match directLookup cfg.commands "colorTemperature" (toString finalEntry) with
  | some found =>
      some (lightSendRemote ctrl { st with colortemp := some finalEntry } found 1 calls tr)
  | none =>
      match stepPlan cfg.colortemps.length oldIdx newIdx with
      | some (dec, steps) =>
          some (lightSendCommand cfg ctrl { st with colortemp := some finalEntry }
            (if dec then "warmer" else "colder") steps calls tr)
      | none => some (st, calls, tr)

/-- The f-string formatting of the indexed scale entry into `final_color_temp`: the indexing
that runs before the direct-command test; `IndexError` is `none`. -/
def lightCTCore (cfg : LightCfg) (ctrl : Nat → Bool) (st : LightSt)
    (oldIdx newIdx : Int) (calls : Nat) (tr : List CmdNode) :
    Option (LightSt × Nat × List CmdNode) :=
  match pyIndex cfg.colortemps newIdx with
  | none => none
  | some finalEntry => lightCTFinal cfg ctrl st oldIdx newIdx finalEntry calls tr

/-- The color-temperature block of `async_turn_on` (lines 173–214): compute
old/new closest indices, the final scale entry, then either a found direct
command or the relative-step plan.  `none` models an uncaught exception
(a `TypeError` inside `closest_match_index` or an `IndexError`). -/
def lightColorTempBlock (cfg : LightCfg) (ctrl : Nat → Bool) (st : LightSt)
    (target : Option Int) (calls : Nat) (tr : List CmdNode) :
    Option (LightSt × Nat × List CmdNode) :=
  match closest_match_index st.colortemp cfg.colortemps,
        closest_match_index target cfg.colortemps with
  | some oldIdx, some newIdx => lightCTCore cfg ctrl st oldIdx newIdx calls tr
  | _, _ => none

/-- The brightness block of `async_turn_on` (lines 216–265): the nightlight
special case, then (when `self._brightnesses` is non-empty) the same
direct-command-or-step-plan scheme as for color temperature.  The returned
`Bool` is whether the block set `did_something`. -/
def lightBrightnessBlock (cfg : LightCfg) (ctrl : Nat → Bool) (st : LightSt)
    (target : Option Int) (calls : Nat) (tr : List CmdNode) :
    Option (LightSt × Nat × List CmdNode × Bool) :=
  if target = some 1 ∧ (lookupKey "night" cfg.commands).isSome then
    let st1 := { st with brightness := some 1, state := "on" }
    let r := lightSendCommand cfg ctrl st1 "night" 1 calls tr
    some (r.1, r.2.1, r.2.2, true)
  else if cfg.brightnesses ≠ [] then
    match closest_match_index st.brightness cfg.brightnesses,
          closest_match_index target cfg.brightnesses with
    | some oldIdx, some newIdx =>
        match pyIndex cfg.brightnesses newIdx with
        | none => none
        | some finalEntry =>
            match directLookup cfg.commands "brightness" (toString finalEntry) with
            | some found =>
                let st1 := { st with brightness := some finalEntry }
                let r := lightSendRemote ctrl st1 found 1 calls tr
                some (r.1, r.2.1, r.2.2, true)
            | none =>
                match stepPlan cfg.brightnesses.length oldIdx newIdx with
                | some (dec, steps) =>
                    let cmd := if dec then "dim" else "brighten"
                    let st1 := { st with brightness := some finalEntry }
                    let r := lightSendCommand cfg ctrl st1 cmd steps calls tr
                    some (r.1, r.2.1, r.2.2, true)
                | none => some (st, calls, tr, true)
    | _, _ => none
  else
    some (st, calls, tr, false)

/-- The `not in params` defaulting of the power-on block's else branch:
`params[ATTR_COLOR_TEMP_KELVIN] = self._colortemp` and
`params[ATTR_BRIGHTNESS] = self._brightness` when the keys are absent. -/
def lightFillParams (params : LightParams) (st : LightSt) : LightParams :=
  { colortempParam := if params.colortempParam = none then some st.colortemp
                      else params.colortempParam,
    brightnessParam := if params.brightnessParam = none then some st.brightness
                       else params.brightnessParam }

/-- The initial power-on block of `async_turn_on` (lines 153–171): when not
already on (and not on by remote), set `_state` to on, then either send the
`on` command or default the missing params to the tracked values.  Returns
(state, params, did_something, call counter, trace). -/
def lightPowerBlock (cfg : LightCfg) (ctrl : Nat → Bool) (st0 : LightSt)
    (params0 : LightParams) (calls0 : Nat) :
    LightSt × LightParams × Bool × Nat × List CmdNode :=
  if st0.state ≠ "on" ∧ st0.onByRemote = false then
    if (lookupKey "on" cfg.commands).isSome then
      match lightSendCommand cfg ctrl { st0 with state := "on" } "on" 1 calls0 [] with
      | (st1, c1, t1) => (st1, params0, true, c1, t1)
    else
      ({ st0 with state := "on" }, lightFillParams params0 st0, false, calls0, [])
  else (st0, params0, false, calls0, [])

/-- The color-temperature step of `async_turn_on` (lines 173–214), including
its `ATTR_COLOR_TEMP_KELVIN in params and ColorMode.COLOR_TEMP in
self.supported_color_modes` guard and the `did_something = True` write. -/
def lightCTStep (cfg : LightCfg) (ctrl : Nat → Bool) (st : LightSt) (params : LightParams)
    (did : Bool) (calls : Nat) (tr : List CmdNode) :
    Option (LightSt × Bool × Nat × List CmdNode) :=
  match params.colortempParam with
  | some target =>
      if "color_temp" ∈ cfg.colorModes then
        match lightColorTempBlock cfg ctrl st target calls tr with
        | none => none
        | some (st2, calls2, tr2) => some (st2, true, calls2, tr2)
      else some (st, did, calls, tr)
  | none => some (st, did, calls, tr)

/-- The brightness step of `async_turn_on` (lines 216–265), guarded by
`ATTR_BRIGHTNESS in params and self._support_brightness`. -/
def lightBRStep (cfg : LightCfg) (ctrl : Nat → Bool) (st : LightSt) (params : LightParams)
    (did : Bool) (calls : Nat) (tr : List CmdNode) :
    Option (LightSt × Bool × Nat × List CmdNode) :=
  match params.brightnessParam with
  | some target =>
      if cfg.supportBrightness then
        match lightBrightnessBlock cfg ctrl st target calls tr with
        | none => none
        | some (st3, calls3, tr3, did3) => some (st3, did || did3, calls3, tr3)
      else some (st, did, calls, tr)
  | none => some (st, did, calls, tr)

/-- The fallback power-on at the end of `async_turn_on` (lines 267–275):
if nothing was done and the light is not known to be on by remote, set
`_state` and issue the `on` command anyway. -/
def lightFinish (cfg : LightCfg) (ctrl : Nat → Bool) (st : LightSt) (did : Bool)
    (calls : Nat) (tr : List CmdNode) : LightSt × Nat × List CmdNode :=
  if did = false ∧ st.onByRemote = false then
    lightSendCommand cfg ctrl { st with state := "on" } "on" 1 calls tr
  else (st, calls, tr)

/-- Embedding of `SmartIRLight.async_turn_on(**params)`, composed of the power-on block,
the color-temperature block, the brightness block and the fallback power-on.
Note that the tracked state fields are written *before* the corresponding
transmissions, and `send_remote_command` swallows controller exceptions, so
the run always ends in `async_write_ha_state` unless an uncaught exception
(`none`) escapes from index computations. -/
def lightTurnOn (cfg : LightCfg) (ctrl : Nat → Bool) (st0 : LightSt)
    (params0 : LightParams) (calls0 : Nat) : Option (LightSt × Nat × List CmdNode) :=
  match lightPowerBlock cfg ctrl st0 params0 calls0 with
  | (st, params, did, calls, tr) =>
      match lightCTStep cfg ctrl st params did calls tr with
      | none => none
      | some (st2, did2, calls2, tr2) =>
          match lightBRStep cfg ctrl st2 params did2 calls2 tr2 with
          | none => none
          | some (st3, did3, calls3, tr3) => some (lightFinish cfg ctrl st3 did3 calls3 tr3)

/-- Embedding of `SmartIRLight.async_turn_off`: when not already off, set `_state` to off
*before* sending the power-off command, then notify.  No power-sensor check
is ever scheduled on this path.  The final `Bool` is whether
`async_write_ha_state` was called. -/
def lightTurnOff (cfg : LightCfg) (ctrl : Nat → Bool) (st : LightSt) (calls : Nat) :
    LightSt × Nat × List CmdNode × Bool :=
  if st.state ≠ "off" then
    let st1 := { st with state := "off" }
    let r := lightSendCommand cfg ctrl st1 "off" 1 calls []
    (r.1, r.2.1, r.2.2, true)
  else (st, calls, [], false)

/- ============================================================
   Transmission serializer (C9) — cooperative scheduler model
   ============================================================ -/

/-- Modelled from the spec: the asyncio event loop and `asyncio.Lock` used by
`_temp_lock` are outside `src/`; spec §5 describes them as single-threaded
cooperative concurrency with one exclusive lock per device.  Two logical
tasks (`ta`, `tb`) each run one multi-code sequence the way every
transmission path in the source does: acquire the device lock, send the
codes one at a time (a failing send aborts the rest), release the lock on
every exit path. -/
inductive TaskId where
  | ta | tb
deriving DecidableEq

/-- Where a task is in its `async with self._temp_lock: for code in codes:
await controller.send(code)` block: still waiting to acquire the lock,
inside the block with the given codes left to send, or finished (block
exited, lock released). -/
inductive TaskPhase where
  | waiting : List CmdNode → TaskPhase
  | sending : List CmdNode → TaskPhase
  | finished : TaskPhase

/-- A scheduler state: both task phases, the lock owner, and the global
transmission trace tagged by sender. -/
structure Sched where
  pa : TaskPhase
  pb : TaskPhase
  lock : Option TaskId
  trace : List (TaskId × CmdNode)

/-- The codes of `l` tagged as sent by task `t`. -/
def tagged (t : TaskId) (l : List CmdNode) : List (TaskId × CmdNode) :=
  l.map (fun c => (t, c))

/-- One cooperative step: a waiting task acquires the free lock; a sending
task sends its next code (successfully, or failing and aborting — the
exception is caught inside the `async with`, which then releases the lock);
a sending task with nothing left exits the block and releases the lock. -/
inductive SchedStep : Sched → Sched → Prop where
  | acquireA (s : Sched) (cs : List CmdNode) :
      s.pa = TaskPhase.waiting cs → s.lock = none →
      SchedStep s { s with pa := TaskPhase.sending cs, lock := some TaskId.ta }
  | sendA (s : Sched) (c : CmdNode) (cs : List CmdNode) :
      s.pa = TaskPhase.sending (c :: cs) →
      SchedStep s { s with pa := TaskPhase.sending cs,
                           trace := s.trace ++ [(TaskId.ta, c)] }
  | failA (s : Sched) (c : CmdNode) (cs : List CmdNode) :
      s.pa = TaskPhase.sending (c :: cs) →
      SchedStep s { s with pa := TaskPhase.finished, lock := none,
                           trace := s.trace ++ [(TaskId.ta, c)] }
  | releaseA (s : Sched) :
      s.pa = TaskPhase.sending [] →
      SchedStep s { s with pa := TaskPhase.finished, lock := none }
  | acquireB (s : Sched) (cs : List CmdNode) :
      s.pb = TaskPhase.waiting cs → s.lock = none →
      SchedStep s { s with pb := TaskPhase.sending cs, lock := some TaskId.tb }
  | sendB (s : Sched) (c : CmdNode) (cs : List CmdNode) :
      s.pb = TaskPhase.sending (c :: cs) →
      SchedStep s { s with pb := TaskPhase.sending cs,
                           trace := s.trace ++ [(TaskId.tb, c)] }
  | failB (s : Sched) (c : CmdNode) (cs : List CmdNode) :
      s.pb = TaskPhase.sending (c :: cs) →
      SchedStep s { s with pb := TaskPhase.finished, lock := none,
                           trace := s.trace ++ [(TaskId.tb, c)] }
  | releaseB (s : Sched) :
      s.pb = TaskPhase.sending [] →
      SchedStep s { s with pb := TaskPhase.finished, lock := none }

/-- Initial scheduler state: both sequences issued, lock free, nothing sent. -/
def Sched.init (ca cb : List CmdNode) : Sched :=
  { pa := TaskPhase.waiting ca, pb := TaskPhase.waiting cb, lock := none, trace := [] }

/-- Reachability under the cooperative scheduler. -/
inductive Reach (s0 : Sched) : Sched → Prop where
  | refl : Reach s0 s0
  | tail {s s' : Sched} : Reach s0 s → SchedStep s s' → Reach s0 s'

/-- The mutual-exclusion invariant: the emitted trace is two homogeneous
blocks (`xa` by task A, `xb` by task B) in acquisition order; a task that
has not acquired yet has emitted nothing; a sending task holds the lock and
its block is the trailing one; a held lock belongs to a sending task. -/
def SchedInv (s : Sched) : Prop :=
  ∃ xa xb : List CmdNode,
    (s.trace = tagged TaskId.ta xa ++ tagged TaskId.tb xb ∨
     s.trace = tagged TaskId.tb xb ++ tagged TaskId.ta xa) ∧
    ((∃ cs, s.pa = TaskPhase.waiting cs) → xa = []) ∧
    ((∃ cs, s.pb = TaskPhase.waiting cs) → xb = []) ∧
    ((∃ cs, s.pa = TaskPhase.sending cs) →
      s.lock = some TaskId.ta ∧ s.trace = tagged TaskId.tb xb ++ tagged TaskId.ta xa) ∧
    ((∃ cs, s.pb = TaskPhase.sending cs) →
      s.lock = some TaskId.tb ∧ s.trace = tagged TaskId.ta xa ++ tagged TaskId.tb xb) ∧
    (s.lock = some TaskId.ta → ∃ cs, s.pa = TaskPhase.sending cs) ∧
    (s.lock = some TaskId.tb → ∃ cs, s.pb = TaskPhase.sending cs)

/- ============================================================
   Concrete instances used in closed statements
   ============================================================ -/

/-- A controller whose sends all succeed. -/
def ctrlTrue : Nat → Bool := fun _ => true

/-- A controller whose sends all raise. -/
def ctrlFalse : Nat → Bool := fun _ => false

/-- A color-temperature light with only relative colder/warmer commands and a
three-entry Kelvin scale. -/
def demoLightCfg : LightCfg :=
  { commands := [("colder", CmdNode.leaf "C"), ("warmer", CmdNode.leaf "W")],
    brightnesses := [], colortemps := [2700, 4000, 6500],
    supportBrightness := false, colorModes := ["color_temp"], powerSensor := false }

/-- The demo light already on, tracked at 4000 K. -/
def demoLightSt : LightSt :=
  { state := "on", onByRemote := false, brightness := none, colortemp := some 4000,
    checkExpect := none, checkActive := false }

/-- A plain on/off light. -/
def demoPowerCfg : LightCfg :=
  { commands := [("on", CmdNode.leaf "PWR_ON"), ("off", CmdNode.leaf "PWR_OFF")],
    brightnesses := [], colortemps := [], supportBrightness := false,
    colorModes := [], powerSensor := false }

/-- The plain on/off light with a power sensor configured. -/
def demoPowerSensorCfg : LightCfg := { demoPowerCfg with powerSensor := true }

/-- A light that is off with no pending verification. -/
def demoLightOff : LightSt :=
  { state := "off", onByRemote := false, brightness := none, colortemp := none,
    checkExpect := none, checkActive := false }

/-- A light that is on with no pending verification. -/
def demoLightOn : LightSt := { demoLightOff with state := "on" }

/-- A fan that is on at low speed. -/
def demoFanSt : FanSt :=
  { state := "on", speed := "low", direction := "forward", oscillating := false,
    onByRemote := false, checkExpect := none, checkActive := false }

/-- A media player that is off. -/
def demoMpSt : MpSt :=
  { state := "off", source := none, onByRemote := false,
    checkExpect := none, checkActive := false }

/-- The spec §8 example tree `{"on": CODE_A, "off": CODE_B}`. -/
def demoTree : CmdNode :=
  CmdNode.dict [("on", CmdNode.leaf "CODE_A"), ("off", CmdNode.leaf "CODE_B")]

/- ============================================================
   C1 support lemmas
   ============================================================ -/

theorem firstExceedIdx_cons_pos {v e : Int} {rest : List Int} (hv : v < e) :
    firstExceedIdx v (e :: rest) = some 0 := by
  rw [firstExceedIdx, if_pos hv]

theorem firstExceedIdx_cons_neg {v e : Int} {rest : List Int} (hv : ¬ v < e) :
    firstExceedIdx v (e :: rest) = (firstExceedIdx v rest).map (· + 1) := by
  rw [firstExceedIdx, if_neg hv]

theorem firstExceedIdx_lt_length {v : Int} {l : List Int} {k : Nat}
    (h : firstExceedIdx v l = some k) : k < l.length := by
  induction l generalizing k with
  | nil => simp [firstExceedIdx] at h
  | cons e rest ih =>
      by_cases hv : v < e
      · rw [firstExceedIdx_cons_pos hv] at h
        injection h with h
        subst h
        simp
      · rw [firstExceedIdx_cons_neg hv] at h
        cases hfe : firstExceedIdx v rest with
        | none => rw [hfe] at h; simp at h
        | some j =>
            rw [hfe] at h
            have hjk : j + 1 = k := Option.some.inj h
            have := ih hfe
            simp only [List.length_cons]
            omega

theorem firstExceedIdx_exceeds {v : Int} {l : List Int} {k : Nat}
    (h : firstExceedIdx v l = some k) : v < l.getD k 0 := by
  induction l generalizing k with
  | nil => simp [firstExceedIdx] at h
  | cons e rest ih =>
      by_cases hv : v < e
      · rw [firstExceedIdx_cons_pos hv] at h
        injection h with h
        subst h
        simpa using hv
      · rw [firstExceedIdx_cons_neg hv] at h
        cases hfe : firstExceedIdx v rest with
        | none => rw [hfe] at h; simp at h
        | some j =>
            rw [hfe] at h
            have hjk : j + 1 = k := Option.some.inj h
            subst hjk
            simpa using ih hfe

theorem firstExceedIdx_before_le {v : Int} {l : List Int} {k : Nat}
    (h : firstExceedIdx v l = some k) : ∀ m, m < k → l.getD m 0 ≤ v := by
  induction l generalizing k with
  | nil => simp [firstExceedIdx] at h
  | cons e rest ih =>
      by_cases hv : v < e
      · rw [firstExceedIdx_cons_pos hv] at h
        injection h with h
        subst h
        intro m hm
        omega
      · rw [firstExceedIdx_cons_neg hv] at h
        cases hfe : firstExceedIdx v rest with
        | none => rw [hfe] at h; simp at h
        | some j =>
            rw [hfe] at h
            have hjk : j + 1 = k := Option.some.inj h
            subst hjk
            intro m hm
            match m with
            | 0 => simpa using le_of_not_lt hv
            | Nat.succ m' => simpa using ih hfe m' (by omega)

theorem headD_eq_getD (l : List Int) : l.headD 0 = l.getD 0 0 := by
  cases l <;> rfl

theorem cmiGo_feNone {v : Int} {l : List Int} (len : Nat) (p : Int) (idx : Nat)
    (h : firstExceedIdx v l = none) :
    cmiGo (some v) len (some p) idx l = some ((len : Int) - 1) := by
  induction l generalizing p idx with
  | nil => rfl
  | cons e rest ih =>
      by_cases hv : v < e
      · rw [firstExceedIdx_cons_pos hv] at h; exact absurd h (by simp)
      · rw [firstExceedIdx_cons_neg hv] at h
        rw [cmiGo, Option.getD_some, if_neg hv]
        exact ih e (idx + 1) (by simpa using h)

theorem cmiGo_feZero {v : Int} {l : List Int} (len : Nat) (p : Int) (idx : Nat)
    (h : firstExceedIdx v l = some 0) :
    cmiGo (some v) len (some p) idx l =
      if v - p < l.headD 0 - v then some ((idx : Int) - 1) else some (idx : Int) := by
  cases l with
  | nil => simp [firstExceedIdx] at h
  | cons e rest =>
      by_cases hv : v < e
      · rw [cmiGo, Option.getD_some, if_pos hv, List.headD_cons]
      · rw [firstExceedIdx_cons_neg hv] at h
        cases hfe : firstExceedIdx v rest with
        | none => rw [hfe] at h; simp at h
        | some j =>
            rw [hfe] at h
            have hjk : j + 1 = 0 := Option.some.inj h
            omega

theorem cmiGo_feSucc {v : Int} {l : List Int} {i : Nat} (len : Nat) (p : Int) (idx : Nat)
    (h : firstExceedIdx v l = some (i + 1)) :
    cmiGo (some v) len (some p) idx l =
      if v - l.getD i 0 < l.getD (i + 1) 0 - v then some ((idx : Int) + i)
      else some ((idx : Int) + i + 1) := by
  induction l generalizing i p idx with
  | nil => simp [firstExceedIdx] at h
  | cons e rest ih =>
      by_cases hv : v < e
      · rw [firstExceedIdx_cons_pos hv] at h
        have h0 : (0 : Nat) = i + 1 := Option.some.inj h
        omega
      · rw [firstExceedIdx_cons_neg hv] at h
        cases hfe : firstExceedIdx v rest with
        | none => rw [hfe] at h; simp at h
        | some j =>
            rw [hfe] at h
            have hji : j + 1 = i + 1 := Option.some.inj h
            have hji' : j = i := by omega
            subst hji'
            rw [cmiGo, Option.getD_some, if_neg hv]
            cases j with
            | zero =>
                rw [cmiGo_feZero len e (idx + 1) hfe]
                rw [headD_eq_getD]
                simp only [List.getD_cons_succ, List.getD_cons_zero]
                have h1 : ((idx + 1 : Nat) : Int) - 1 = (idx : Int) + ((0 : Nat) : Int) := by
                  push_cast; ring
                have h2 : ((idx + 1 : Nat) : Int) = (idx : Int) + ((0 : Nat) : Int) + 1 := by
                  push_cast; ring
                rw [h1, h2]
            | succ j' =>
                rw [ih e (idx + 1) hfe]
                simp only [List.getD_cons_succ]
                have h1 : ((idx + 1 : Nat) : Int) + (j' : Int) = (idx : Int) + ((j' + 1 : Nat) : Int) := by
                  push_cast; ring
                rw [h1]

theorem closestMatchIndexSpec_feNone {v : Int} {l : List Int}
    (h : firstExceedIdx v l = none) :
    closestMatchIndexSpec v l = (l.length : Int) - 1 := by
  rw [closestMatchIndexSpec, h]

theorem closestMatchIndexSpec_feZero {v : Int} {l : List Int}
    (h : firstExceedIdx v l = some 0) :
    closestMatchIndexSpec v l = 0 := by
  rw [closestMatchIndexSpec, h]

theorem closestMatchIndexSpec_feSucc {v : Int} {l : List Int} {i : Nat}
    (h : firstExceedIdx v l = some (i + 1)) :
    closestMatchIndexSpec v l =
      if |v - l.getD i 0| < |l.getD (i + 1) 0 - v| then (i : Int) else (i : Int) + 1 := by
  rw [closestMatchIndexSpec, h]

theorem closest_match_index_eq_spec (v : Int) (l : List Int) :
    closest_match_index (some v) l = some (closestMatchIndexSpec v l) := by
  cases l with
  | nil => simp [closest_match_index, cmiGo, closestMatchIndexSpec, firstExceedIdx]
  | cons e rest =>
      rw [closest_match_index, cmiGo, Option.getD_some]
      by_cases hv : v < e
      · rw [if_pos hv, closestMatchIndexSpec_feZero (firstExceedIdx_cons_pos hv)]
        simp
      · rw [if_neg hv]
        have hle : e ≤ v := le_of_not_lt hv
        cases hfe : firstExceedIdx v rest with
        | none =>
            have hfe' : firstExceedIdx v (e :: rest) = none := by
              rw [firstExceedIdx_cons_neg hv, hfe]; rfl
            rw [cmiGo_feNone (e :: rest).length e 1 hfe,
                closestMatchIndexSpec_feNone hfe']
        | some j =>
            have hfe' : firstExceedIdx v (e :: rest) = some (j + 1) := by
              rw [firstExceedIdx_cons_neg hv, hfe]; rfl
            rw [closestMatchIndexSpec_feSucc hfe']
            cases j with
            | zero =>
                rw [cmiGo_feZero (e :: rest).length e 1 hfe, headD_eq_getD]
                have hgt : v < rest.getD 0 0 := firstExceedIdx_exceeds hfe
                have habs1 : |v - (e :: rest).getD 0 0| = v - e := by
                  rw [List.getD_cons_zero]
                  exact abs_of_nonneg (by omega)
                have habs2 : |(e :: rest).getD 1 0 - v| = rest.getD 0 0 - v := by
                  rw [List.getD_cons_succ]
                  exact abs_of_nonneg (by omega)
                rw [habs1, habs2]
                by_cases hcmp : v - e < rest.getD 0 0 - v
                · rw [if_pos hcmp, if_pos hcmp]
                  norm_num
                · rw [if_neg hcmp, if_neg hcmp]
                  norm_num
            | succ j' =>
                rw [cmiGo_feSucc (e :: rest).length e 1 hfe]
                have hgt : v < rest.getD (j' + 1) 0 := firstExceedIdx_exceeds hfe
                have hpre : rest.getD j' 0 ≤ v :=
                  firstExceedIdx_before_le hfe j' (by omega)
                have habs1 : |v - (e :: rest).getD (j' + 1) 0| = v - rest.getD j' 0 := by
                  rw [List.getD_cons_succ]
                  exact abs_of_nonneg (by omega)
                have habs2 : |(e :: rest).getD (j' + 1 + 1) 0 - v| = rest.getD (j' + 1) 0 - v := by
                  rw [List.getD_cons_succ]
                  exact abs_of_nonneg (by omega)
                rw [habs1, habs2]
                by_cases hcmp : v - rest.getD j' 0 < rest.getD (j' + 1) 0 - v
                · rw [if_pos hcmp, if_pos hcmp]
                  congr 1
                  push_cast
                  ring
                · rw [if_neg hcmp, if_neg hcmp]
                  congr 1
                  push_cast
                  ring

theorem cmiGo_bounds {value : Option Int} {len : Nat} {l : List Int} {p : Option Int}
    {idx : Nat} {i : Int} (h : cmiGo value len p idx l = some i)
    (hinv : idx + l.length = len) (hp : p = none ∨ 1 ≤ idx) (hlen : 1 ≤ len) :
    0 ≤ i ∧ i < (len : Int) := by
  induction l generalizing p idx with
  | nil =>
      rw [cmiGo] at h
      have := Option.some.inj h
      omega
  | cons e rest ih =>
      rw [cmiGo.eq_def] at h
      simp only [] at h
      simp only [List.length_cons] at hinv
      by_cases hv : value.getD 0 < e
      · rw [if_pos hv] at h
        cases p with
        | none =>
            have := Option.some.inj h
            omega
        | some pv =>
            cases value with
            | none => exact absurd h (by simp)
            | some w =>
                have hidx : 1 ≤ idx := by
                  cases hp with
                  | inl hl => exact absurd hl (by simp)
                  | inr hr => exact hr
                simp only [] at h
                by_cases hcmp : w - pv < e - w
                · rw [if_pos hcmp] at h
                  have := Option.some.inj h
                  omega
                · rw [if_neg hcmp] at h
                  have := Option.some.inj h
                  omega
      · rw [if_neg hv] at h
        exact ih h (by omega) (Or.inr (by omega))

theorem closest_match_index_bounds {value : Option Int} {l : List Int} {i : Int}
    (h : closest_match_index value l = some i) (hne : l ≠ []) :
    0 ≤ i ∧ i < (l.length : Int) := by
  have hlen : 1 ≤ l.length := by
    cases l with
    | nil => exact absurd rfl hne
    | cons e rest => simp
  exact cmiGo_bounds h (by simp [closest_match_index]) (Or.inl rfl) hlen

theorem pyIndex_of_bounds {l : List Int} {i : Int} (h0 : 0 ≤ i) (h1 : i < (l.length : Int)) :
    pyIndex l i = some (l.getD i.toNat 0) := by
  rw [pyIndex, if_pos ⟨h0, h1⟩]

theorem closest_match_index_none_headpos (a : Int) (l : List Int) (ha : 0 < a) :
    closest_match_index none (a :: l) = some 0 := by
  rw [closest_match_index, cmiGo]
  simp only [Option.getD_none]
  rw [if_pos ha]
  simp

/- ============================================================
   Step-plan lemmas (C2 / C8 support)
   ============================================================ -/

theorem stepPlan_self (n : Nat) (i : Int) : stepPlan n i i = none := by
  simp [stepPlan]

theorem stepPlan_boundary (len : Nat) (oldIdx newIdx : Int)
    (hb : newIdx = 0 ∨ newIdx = (len : Int) - 1) (hne : oldIdx ≠ newIdx) :
    stepPlan len oldIdx newIdx = some (decide (newIdx < oldIdx), len) := by
  unfold stepPlan
  have hpos : 0 < (newIdx - oldIdx).natAbs := by
    rw [Int.natAbs_pos]
    omega
  rw [if_pos hpos, if_pos (by omega : newIdx = (len : Int) - 1 ∨ newIdx = 0)]
  have hiff : (newIdx - oldIdx < 0) ↔ (newIdx < oldIdx) := by omega
  rw [show (decide (newIdx - oldIdx < 0)) = (decide (newIdx < oldIdx)) from
    decide_eq_decide.mpr hiff]

/- ============================================================
   Verification-scheduling lemmas (C5 support)
   ============================================================ -/

theorem powerSensorCheckSchedule_eq (t : String) (st : EntSt) :
    powerSensorCheckSchedule t st = { st with checkExpect := some t, checkActive := true } := by
  unfold powerSensorCheckSchedule
  by_cases h : st.checkActive <;> simp [h]

theorem fanScheduleCheck_eq (st : FanSt) (t : String) :
    fanScheduleCheck st t = { st with checkExpect := some t, checkActive := true } := by
  unfold fanScheduleCheck
  by_cases h : st.checkActive <;> simp [h]

theorem mpScheduleCheck_eq (st : MpSt) (t : String) :
    mpScheduleCheck st t = { st with checkExpect := some t, checkActive := true } := by
  unfold mpScheduleCheck
  by_cases h : st.checkActive <;> simp [h]

/- ============================================================
   Media-player sequence lemmas (C3 / C4 support)
   ============================================================ -/

/-- What one sending phase guarantees about the controller-call window
`[calls, r.2.1)`: the counter never goes backwards; a fully successful phase
made only successful calls; a failed call inside the window is the last call
and ends the phase in `exc`. -/
abbrev PhaseSpec (ctrl : Nat → Bool) (calls : Nat) (r : SendFlow × Nat × List CmdNode) : Prop :=
  calls ≤ r.2.1 ∧
  (r.1 = SendFlow.ok → ∀ j, calls ≤ j → j < r.2.1 → ctrl j = true) ∧
  (∀ j, calls ≤ j → j < r.2.1 → ctrl j = false → r.2.1 = j + 1 ∧ r.1 = SendFlow.exc)

theorem phaseSpec_const (ctrl : Nat → Bool) (calls : Nat) (f : SendFlow) (t : List CmdNode) :
    PhaseSpec ctrl calls (f, calls, t) := by
  refine ⟨le_refl _, ?_, ?_⟩
  · intro _ j h1 h2
    have h2' : j < calls := h2
    exact absurd h2' (by omega)
  · intro j h1 h2
    have h2' : j < calls := h2
    exact absurd h2' (by omega)

theorem phaseSpec_send (ctrl : Nat → Bool) (calls : Nat) (v : CmdNode) :
    PhaseSpec ctrl calls
      (if ctrl calls then (SendFlow.ok, calls + 1, [v]) else (SendFlow.exc, calls + 1, [v])) := by
  by_cases hc : ctrl calls
  · rw [if_pos hc]
    refine ⟨Nat.le_succ calls, ?_, ?_⟩
    · intro _ j h1 h2
      have h2' : j < calls + 1 := h2
      have : j = calls := by omega
      rw [this]
      exact hc
    · intro j h1 h2 hcf
      have h2' : j < calls + 1 := h2
      have : j = calls := by omega
      rw [this, hc] at hcf
      exact absurd hcf (by simp)
  · rw [if_neg hc]
    refine ⟨Nat.le_succ calls, ?_, ?_⟩
    · intro hok
      have hok' : SendFlow.exc = SendFlow.ok := hok
      exact SendFlow.noConfusion hok'
    · intro j h1 h2 hcf
      have h2' : j < calls + 1 := h2
      exact ⟨show calls + 1 = j + 1 by omega, rfl⟩

theorem phaseSpec_sendTr (ctrl : Nat → Bool) (calls : Nat) (code : CmdNode)
    (rOk rExc : SendFlow × Nat × List CmdNode)
    (hOk : rOk = (SendFlow.ok, calls + 1, [code])) (hExc : rExc = (SendFlow.exc, calls + 1, [code])) :
    PhaseSpec ctrl calls (if ctrl calls then rOk else rExc) := by
  rw [hOk, hExc]
  exact phaseSpec_send ctrl calls code

theorem phaseSpec_extend {ctrl : Nat → Bool} {calls : Nat} {r : SendFlow × Nat × List CmdNode}
    (hc : ctrl calls = true) (h : PhaseSpec ctrl (calls + 1) r) : PhaseSpec ctrl calls r := by
  obtain ⟨hle, hok, hfail⟩ := h
  refine ⟨by omega, ?_, ?_⟩
  · intro hfl j h1 h2
    by_cases hj : j = calls
    · rw [hj]; exact hc
    · exact hok hfl j (by omega) h2
  · intro j h1 h2 hcf
    by_cases hj : j = calls
    · rw [hj, hc] at hcf
      exact absurd hcf (by simp)
    · exact hfail j (by omega) h2 hcf

theorem mpPowerPhase_phaseSpec (cmds : List (String × CmdNode)) (ctrl : Nat → Bool)
    (ck sk : String) (sm : Bool) (calls : Nat) :
    PhaseSpec ctrl calls (mpPowerPhase cmds ctrl ck sk sm calls) := by
  unfold mpPowerPhase
  split
  · split
    · exact phaseSpec_const ctrl calls _ _
    · split
      · exact phaseSpec_const ctrl calls _ _
      · exact phaseSpec_send ctrl calls _
  · split
    · exact phaseSpec_const ctrl calls _ _
    · exact phaseSpec_send ctrl calls _

theorem mpRunPaths_phaseSpec (cmds : List (String × CmdNode)) (ctrl : Nat → Bool)
    (paths : List (List String)) :
    ∀ (calls : Nat) (tr : List CmdNode), PhaseSpec ctrl calls (mpRunPaths cmds ctrl paths calls tr) := by
  induction paths with
  | nil =>
      intro calls tr
      exact phaseSpec_const ctrl calls _ _
  | cons keys rest ih =>
      intro calls tr
      rw [mpRunPaths]
      split
      · exact phaseSpec_const ctrl calls _ _
      · exact ih calls tr
      · next code _ =>
          by_cases hc : ctrl calls
          · rw [if_pos hc]
            exact phaseSpec_extend hc (ih (calls + 1) (tr ++ [CmdNode.leaf code]))
          · rw [if_neg hc]
            refine ⟨Nat.le_succ calls, ?_, ?_⟩
            · intro hok
              have hok' : SendFlow.exc = SendFlow.ok := hok
              exact SendFlow.noConfusion hok'
            · intro j h1 h2 hcf
              have h2' : j < calls + 1 := h2
              exact ⟨show calls + 1 = j + 1 by omega, rfl⟩

/-- The controller-call window property of a whole `_send_command` run. -/
abbrev WindowSpec (ctrl : Nat → Bool) (calls : Nat) (f : SendFlow) (c : Nat) : Prop :=
  calls ≤ c ∧
  (f = SendFlow.ok → ∀ j, calls ≤ j → j < c → ctrl j = true) ∧
  (∀ j, calls ≤ j → j < c → ctrl j = false → c = j + 1 ∧ f = SendFlow.exc)

theorem windowSpec_comp {ctrl : Nat → Bool} {calls c1 c2 : Nat} {f2 : SendFlow}
    (h1 : WindowSpec ctrl calls SendFlow.ok c1) (h2 : WindowSpec ctrl c1 f2 c2) :
    WindowSpec ctrl calls f2 c2 := by
  obtain ⟨l1, ok1, fa1⟩ := h1
  obtain ⟨l2, ok2, fa2⟩ := h2
  refine ⟨le_trans l1 l2, ?_, ?_⟩
  · intro hf j hj1 hj2
    by_cases hj : j < c1
    · exact ok1 rfl j hj1 hj
    · exact ok2 hf j (by omega) hj2
  · intro j hj1 hj2 hcf
    by_cases hj : j < c1
    · obtain ⟨hc1, hfl⟩ := fa1 j hj1 hj hcf
      exact SendFlow.noConfusion hfl
    · exact fa2 j (by omega) hj2 hcf

/-- The conjunction of facts needed about any `_send_command`-shaped result:
notification iff full success, state untouched (beyond scheduling) without
notification, the exact update with it, and the controller-call window
property. -/
abbrev MpResSpec (ps : Bool) (st : MpSt) (target : String) (ctrl : Nat → Bool)
    (calls : Nat) (r : MpRes) : Prop :=
  (r.notified = true ↔ r.flow = SendFlow.ok) ∧
  (r.notified = false → r.st = mpSchedulePhase ps st target) ∧
  (r.notified = true →
    r.st = { mpSchedulePhase ps st target with state := target, onByRemote := false }) ∧
  WindowSpec ctrl calls r.flow r.calls

theorem mpFinish_spec (ps : Bool) (st : MpSt) (target : String) (ctrl : Nat → Bool)
    (calls : Nat) (r : SendFlow × Nat × List CmdNode)
    (hw : WindowSpec ctrl calls r.1 r.2.1) :
    MpResSpec ps st target ctrl calls (mpFinish ps st target r) := by
  rcases r with ⟨f, c, t⟩
  have hw' : WindowSpec ctrl calls f c := hw
  cases f with
  | ok =>
      refine ⟨by simp [mpFinish], ?_, ?_, hw'⟩
      · intro h
        exact absurd h (by simp [mpFinish])
      · intro _
        rfl
  | ret =>
      refine ⟨by simp [mpFinish], ?_, ?_, hw'⟩
      · intro _
        rfl
      · intro h
        exact absurd h (by simp [mpFinish])
  | exc =>
      refine ⟨by simp [mpFinish], ?_, ?_, hw'⟩
      · intro _
        rfl
      · intro h
        exact absurd h (by simp [mpFinish])

theorem mpOnTail_spec (cmds : List (String × CmdNode)) (ps : Bool) (ctrl : Nat → Bool)
    (st : MpSt) (target : String) (paths : List (List String)) (calls : Nat)
    (r : SendFlow × Nat × List CmdNode) (hw : WindowSpec ctrl calls r.1 r.2.1) :
    MpResSpec ps st target ctrl calls (mpOnTail cmds ps ctrl st target paths r) := by
  rcases r with ⟨f1, c1, t1⟩
  have hw1 : WindowSpec ctrl calls f1 c1 := hw
  cases f1 with
  | ok =>
      have hw2 : WindowSpec ctrl c1 (mpRunPaths cmds ctrl paths c1 t1).1
          (mpRunPaths cmds ctrl paths c1 t1).2.1 :=
        mpRunPaths_phaseSpec cmds ctrl paths c1 t1
      exact mpFinish_spec ps st target ctrl calls (mpRunPaths cmds ctrl paths c1 t1)
        (windowSpec_comp hw1 hw2)
  | ret =>
      refine ⟨by simp [mpOnTail], ?_, ?_, hw1⟩
      · intro _
        rfl
      · intro h
        exact absurd h (by simp [mpOnTail])
  | exc =>
      refine ⟨by simp [mpOnTail], ?_, ?_, hw1⟩
      · intro _
        rfl
      · intro h
        exact absurd h (by simp [mpOnTail])

theorem mpSendCommand_spec (cmds : List (String × CmdNode)) (ps : Bool) (ctrl : Nat → Bool)
    (st : MpSt) (target : String) (paths : List (List String)) (calls : Nat) :
    MpResSpec ps st target ctrl calls (mpSendCommand cmds ps ctrl st target paths calls) := by
  unfold mpSendCommand
  split
  · exact mpFinish_spec ps st target ctrl calls _
      (mpPowerPhase_phaseSpec cmds ctrl "on" "off" (st.state == "off") calls)
  · exact mpOnTail_spec cmds ps ctrl st target paths calls _
      (mpPowerPhase_phaseSpec cmds ctrl "off" "on" (st.state == "on") calls)

theorem mpSchedulePhase_fields (ps : Bool) (st : MpSt) (t : String) :
    (mpSchedulePhase ps st t).state = st.state ∧
    (mpSchedulePhase ps st t).onByRemote = st.onByRemote ∧
    (mpSchedulePhase ps st t).source = st.source := by
  unfold mpSchedulePhase
  split
  · rw [mpScheduleCheck_eq]
    exact ⟨rfl, rfl, rfl⟩
  · exact ⟨rfl, rfl, rfl⟩

theorem mpSendCommand_not_notified_preserves (cmds : List (String × CmdNode)) (ps : Bool)
    (ctrl : Nat → Bool) (st : MpSt) (target : String) (paths : List (List String)) (calls : Nat)
    (h : (mpSendCommand cmds ps ctrl st target paths calls).notified = false) :
    (mpSendCommand cmds ps ctrl st target paths calls).st.state = st.state ∧
    (mpSendCommand cmds ps ctrl st target paths calls).st.onByRemote = st.onByRemote ∧
    (mpSendCommand cmds ps ctrl st target paths calls).st.source = st.source := by
  obtain ⟨_, hf, _, _⟩ := mpSendCommand_spec cmds ps ctrl st target paths calls
  rw [hf h]
  exact mpSchedulePhase_fields ps st target

theorem mpSendCommand_failed_call (cmds : List (String × CmdNode)) (ps : Bool)
    (ctrl : Nat → Bool) (st : MpSt) (target : String) (paths : List (List String))
    (calls j : Nat) (hj1 : calls ≤ j)
    (hj2 : j < (mpSendCommand cmds ps ctrl st target paths calls).calls)
    (hcf : ctrl j = false) :
    (mpSendCommand cmds ps ctrl st target paths calls).notified = false ∧
    (mpSendCommand cmds ps ctrl st target paths calls).calls = j + 1 := by
  obtain ⟨hiff, _, _, _, _, hfail⟩ := mpSendCommand_spec cmds ps ctrl st target paths calls
  obtain ⟨hc, hfl⟩ := hfail j hj1 hj2 hcf
  refine ⟨?_, hc⟩
  cases hn : (mpSendCommand cmds ps ctrl st target paths calls).notified with
  | false => rfl
  | true =>
      have := hiff.mp hn
      rw [hfl] at this
      exact SendFlow.noConfusion this

theorem mpSendCommand_schedules (cmds : List (String × CmdNode)) (ps : Bool)
    (ctrl : Nat → Bool) (st : MpSt) (target : String) (paths : List (List String))
    (calls : Nat) (hps : ps = true) (hne : st.state ≠ target) :
    (mpSendCommand cmds ps ctrl st target paths calls).st.checkExpect = some target ∧
    (mpSendCommand cmds ps ctrl st target paths calls).st.checkActive = true := by
  have hsch : mpSchedulePhase ps st target =
      { st with checkExpect := some target, checkActive := true } := by
    unfold mpSchedulePhase
    rw [if_pos ⟨hps, hne⟩]
    exact mpScheduleCheck_eq st target
  obtain ⟨_, hf, ht, _⟩ := mpSendCommand_spec cmds ps ctrl st target paths calls
  cases hn : (mpSendCommand cmds ps ctrl st target paths calls).notified with
  | true =>
      rw [ht hn, hsch]
      exact ⟨rfl, rfl⟩
  | false =>
      rw [hf hn, hsch]
      exact ⟨rfl, rfl⟩

/- ============================================================
   Fan lemmas (C3 / C5 support)
   ============================================================ -/

theorem fanSchedulePhase_fields (ps : Bool) (st : FanSt) (t : String) :
    (fanSchedulePhase ps st t).state = st.state ∧
    (fanSchedulePhase ps st t).speed = st.speed ∧
    (fanSchedulePhase ps st t).direction = st.direction ∧
    (fanSchedulePhase ps st t).oscillating = st.oscillating ∧
    (fanSchedulePhase ps st t).onByRemote = st.onByRemote := by
  unfold fanSchedulePhase
  split
  · rw [fanScheduleCheck_eq]
    exact ⟨rfl, rfl, rfl, rfl, rfl⟩
  · exact ⟨rfl, rfl, rfl, rfl, rfl⟩

theorem fanSendCommand_fail (cmds : List (String × CmdNode)) (ps : Bool) (ctrl : Nat → Bool)
    (st : FanSt) (target speed direction : String) (oscillate : Bool) (calls : Nat)
    (hc : ctrl calls = false) :
    (fanSendCommand cmds ps ctrl st target speed direction oscillate calls).st.state = st.state ∧
    (fanSendCommand cmds ps ctrl st target speed direction oscillate calls).st.speed = st.speed ∧
    (fanSendCommand cmds ps ctrl st target speed direction oscillate calls).st.direction = st.direction ∧
    (fanSendCommand cmds ps ctrl st target speed direction oscillate calls).st.oscillating = st.oscillating ∧
    (fanSendCommand cmds ps ctrl st target speed direction oscillate calls).st.onByRemote = st.onByRemote ∧
    (fanSendCommand cmds ps ctrl st target speed direction oscillate calls).notified = false := by
  obtain ⟨h1, h2, h3, h4, h5⟩ := fanSchedulePhase_fields ps st target
  unfold fanSendCommand
  split
  · exact ⟨h1, h2, h3, h4, h5, rfl⟩
  · rw [hc]
    simp only [Bool.false_eq_true, if_false]
    exact ⟨h1, h2, h3, h4, h5, trivial⟩

theorem fanSendCommand_schedules (cmds : List (String × CmdNode)) (ps : Bool)
    (ctrl : Nat → Bool) (st : FanSt) (target speed direction : String) (oscillate : Bool)
    (calls : Nat) (hps : ps = true) (hne : st.state ≠ target) :
    (fanSendCommand cmds ps ctrl st target speed direction oscillate calls).st.checkExpect = some target ∧
    (fanSendCommand cmds ps ctrl st target speed direction oscillate calls).st.checkActive = true := by
  have hsch : fanSchedulePhase ps st target =
      { st with checkExpect := some target, checkActive := true } := by
    unfold fanSchedulePhase
    rw [if_pos ⟨hps, hne⟩]
    exact fanScheduleCheck_eq st target
  unfold fanSendCommand
  split
  · rw [hsch]
    exact ⟨rfl, rfl⟩
  · split
    · rw [hsch]
      exact ⟨rfl, rfl⟩
    · rw [hsch]
      exact ⟨rfl, rfl⟩

/- ============================================================
   Light idempotence lemmas (C8 support)
   ============================================================ -/

theorem lightColorTempBlock_self (cfg : LightCfg) (ctrl : Nat → Bool) (st : LightSt)
    (calls : Nat) (tr : List CmdNode) (i : Int)
    (hcmi : closest_match_index st.colortemp cfg.colortemps = some i)
    (hne : cfg.colortemps ≠ [])
    (hdl : ∀ e : Int, directLookup cfg.commands "colorTemperature" (toString e) = none) :
    lightColorTempBlock cfg ctrl st st.colortemp calls tr = some (st, calls, tr) := by
  obtain ⟨h0, h1⟩ := closest_match_index_bounds hcmi hne
  unfold lightColorTempBlock
  rw [hcmi]
  show lightCTCore cfg ctrl st i i calls tr = some (st, calls, tr)
  unfold lightCTCore
  rw [pyIndex_of_bounds h0 h1]
  show lightCTFinal cfg ctrl st i i (cfg.colortemps.getD i.toNat 0) calls tr =
    some (st, calls, tr)
  unfold lightCTFinal
  rw [hdl (cfg.colortemps.getD i.toNat 0), stepPlan_self]

theorem lightTurnOn_selfTarget (cfg : LightCfg) (ctrl : Nat → Bool) (st : LightSt)
    (calls : Nat) (i : Int)
    (hstate : st.state = "on")
    (hmode : "color_temp" ∈ cfg.colorModes)
    (hne : cfg.colortemps ≠ [])
    (hcmi : closest_match_index st.colortemp cfg.colortemps = some i)
    (hdl : ∀ e : Int, directLookup cfg.commands "colorTemperature" (toString e) = none) :
    lightTurnOn cfg ctrl st ⟨some st.colortemp, none⟩ calls = some (st, calls, []) := by
  have hp1 : lightPowerBlock cfg ctrl st ⟨some st.colortemp, none⟩ calls =
      (st, ⟨some st.colortemp, none⟩, false, calls, []) := by
    unfold lightPowerBlock
    rw [if_neg (fun hcon => hcon.1 hstate)]
  have h2 : lightCTStep cfg ctrl st ⟨some st.colortemp, none⟩ false calls [] =
      some (st, true, calls, []) := by
    show (if "color_temp" ∈ cfg.colorModes then
            match lightColorTempBlock cfg ctrl st st.colortemp calls [] with
            | none => none
            | some (st2, calls2, tr2) => some (st2, true, calls2, tr2)
          else some (st, false, calls, [])) = some (st, true, calls, [])
    rw [if_pos hmode, lightColorTempBlock_self cfg ctrl st calls [] i hcmi hne hdl]
  have h3 : lightBRStep cfg ctrl st ⟨some st.colortemp, none⟩ true calls [] =
      some (st, true, calls, []) := rfl
  have h4 : lightFinish cfg ctrl st true calls [] = (st, calls, []) := by
    unfold lightFinish
    rw [if_neg (fun hcon => Bool.noConfusion hcon.1)]
  unfold lightTurnOn
  rw [hp1]
  show (match lightCTStep cfg ctrl st ⟨some st.colortemp, none⟩ false calls [] with
        | none => none
        | some (st2, did2, calls2, tr2) =>
            match lightBRStep cfg ctrl st2 ⟨some st.colortemp, none⟩ did2 calls2 tr2 with
            | none => none
            | some (st3, did3, calls3, tr3) =>
                some (lightFinish cfg ctrl st3 did3 calls3 tr3)) = some (st, calls, [])
  rw [h2]
  show (match lightBRStep cfg ctrl st ⟨some st.colortemp, none⟩ true calls [] with
        | none => none
        | some (st3, did3, calls3, tr3) =>
            some (lightFinish cfg ctrl st3 did3 calls3 tr3)) = some (st, calls, [])
  rw [h3]
  show some (lightFinish cfg ctrl st true calls []) = some (st, calls, [])
  rw [h4]

/- ============================================================
   Scheduler invariant (C9 support)
   ============================================================ -/

theorem tagged_append (t : TaskId) (l1 l2 : List CmdNode) :
    tagged t (l1 ++ l2) = tagged t l1 ++ tagged t l2 := by
  unfold tagged
  exact List.map_append _ l1 l2

theorem mem_tagged {t : TaskId} {l : List CmdNode} {e : TaskId × CmdNode}
    (h : e ∈ tagged t l) : e.1 = t := by
  unfold tagged at h
  obtain ⟨c, _, rfl⟩ := List.mem_map.mp h
  rfl

theorem schedInv_init (ca cb : List CmdNode) : SchedInv (Sched.init ca cb) := by
  refine ⟨[], [], Or.inl rfl, fun _ => rfl, fun _ => rfl, ?_, ?_, ?_, ?_⟩
  · rintro ⟨cs, hcs⟩
    exact TaskPhase.noConfusion hcs
  · rintro ⟨cs, hcs⟩
    exact TaskPhase.noConfusion hcs
  · intro hl
    exact Option.noConfusion hl
  · intro hl
    exact Option.noConfusion hl

theorem schedInv_step {s s' : Sched} (hinv : SchedInv s) (hs : SchedStep s s') :
    SchedInv s' := by
  obtain ⟨xa, xb, hsplit, hwa, hwb, hsa, hsb, hla, hlb⟩ := hinv
  cases hs with
  | acquireA cs hpa hlock =>
      have hxa : xa = [] := hwa ⟨cs, hpa⟩
      subst hxa
      have htr : s.trace = tagged TaskId.tb xb := by
        cases hsplit with
        | inl h => simpa [tagged] using h
        | inr h => simpa [tagged] using h
      refine ⟨[], xb, Or.inr (by simpa [tagged] using htr), fun _ => rfl, hwb, ?_, ?_, ?_, ?_⟩
      · intro _
        exact ⟨rfl, by simpa [tagged] using htr⟩
      · rintro ⟨cs2, hcs2⟩
        have := (hsb ⟨cs2, hcs2⟩).1
        rw [hlock] at this
        exact Option.noConfusion this
      · intro _
        exact ⟨cs, rfl⟩
      · intro hl
        have : TaskId.ta = TaskId.tb := Option.some.inj hl
        exact TaskId.noConfusion this
  | sendA c cs hpa =>
      obtain ⟨hlock, htr⟩ := hsa ⟨c :: cs, hpa⟩
      have hbnot : ¬ ∃ cs2, s.pb = TaskPhase.sending cs2 := by
        rintro ⟨cs2, hcs2⟩
        have := (hsb ⟨cs2, hcs2⟩).1
        rw [hlock] at this
        have := Option.some.inj this
        exact TaskId.noConfusion this
      refine ⟨xa ++ [c], xb, Or.inr ?_, ?_, ?_, ?_, ?_, ?_, ?_⟩
      · show s.trace ++ [(TaskId.ta, c)] = tagged TaskId.tb xb ++ tagged TaskId.ta (xa ++ [c])
        rw [htr, tagged_append]
        simp [tagged]
      · rintro ⟨cs2, hcs2⟩
        exact TaskPhase.noConfusion hcs2
      · intro hw
        exact hwb hw
      · intro _
        refine ⟨hlock, ?_⟩
        show s.trace ++ [(TaskId.ta, c)] = tagged TaskId.tb xb ++ tagged TaskId.ta (xa ++ [c])
        rw [htr, tagged_append]
        simp [tagged]
      · rintro ⟨cs2, hcs2⟩
        exact absurd ⟨cs2, hcs2⟩ hbnot
      · intro _
        exact ⟨cs, rfl⟩
      · intro hl
        have : TaskId.ta = TaskId.tb := Option.some.inj (hlock ▸ hl)
        exact TaskId.noConfusion this
  | failA c cs hpa =>
      obtain ⟨hlock, htr⟩ := hsa ⟨c :: cs, hpa⟩
      have hbnot : ¬ ∃ cs2, s.pb = TaskPhase.sending cs2 := by
        rintro ⟨cs2, hcs2⟩
        have := (hsb ⟨cs2, hcs2⟩).1
        rw [hlock] at this
        have := Option.some.inj this
        exact TaskId.noConfusion this
      refine ⟨xa ++ [c], xb, Or.inr ?_, ?_, ?_, ?_, ?_, ?_, ?_⟩
      · show s.trace ++ [(TaskId.ta, c)] = tagged TaskId.tb xb ++ tagged TaskId.ta (xa ++ [c])
        rw [htr, tagged_append]
        simp [tagged]
      · rintro ⟨cs2, hcs2⟩
        exact TaskPhase.noConfusion hcs2
      · intro hw
        exact hwb hw
      · rintro ⟨cs2, hcs2⟩
        exact TaskPhase.noConfusion hcs2
      · rintro ⟨cs2, hcs2⟩
        exact absurd ⟨cs2, hcs2⟩ hbnot
      · intro hl
        exact Option.noConfusion hl
      · intro hl
        exact Option.noConfusion hl
  | releaseA hpa =>
      obtain ⟨hlock, htr⟩ := hsa ⟨[], hpa⟩
      have hbnot : ¬ ∃ cs2, s.pb = TaskPhase.sending cs2 := by
        rintro ⟨cs2, hcs2⟩
        have := (hsb ⟨cs2, hcs2⟩).1
        rw [hlock] at this
        have := Option.some.inj this
        exact TaskId.noConfusion this
      refine ⟨xa, xb, Or.inr htr, ?_, ?_, ?_, ?_, ?_, ?_⟩
      · rintro ⟨cs2, hcs2⟩
        exact TaskPhase.noConfusion hcs2
      · intro hw
        exact hwb hw
      · rintro ⟨cs2, hcs2⟩
        exact TaskPhase.noConfusion hcs2
      · rintro ⟨cs2, hcs2⟩
        exact absurd ⟨cs2, hcs2⟩ hbnot
      · intro hl
        exact Option.noConfusion hl
      · intro hl
        exact Option.noConfusion hl
  | acquireB cs hpb hlock =>
      have hxb : xb = [] := hwb ⟨cs, hpb⟩
      subst hxb
      have htr : s.trace = tagged TaskId.ta xa := by
        cases hsplit with
        | inl h => simpa [tagged] using h
        | inr h => simpa [tagged] using h
      refine ⟨xa, [], Or.inl (by simpa [tagged] using htr), hwa, fun _ => rfl, ?_, ?_, ?_, ?_⟩
      · rintro ⟨cs2, hcs2⟩
        have := (hsa ⟨cs2, hcs2⟩).1
        rw [hlock] at this
        exact Option.noConfusion this
      · intro _
        exact ⟨rfl, by simpa [tagged] using htr⟩
      · intro hl
        have : TaskId.tb = TaskId.ta := Option.some.inj hl
        exact TaskId.noConfusion this
      · intro _
        exact ⟨cs, rfl⟩
  | sendB c cs hpb =>
      obtain ⟨hlock, htr⟩ := hsb ⟨c :: cs, hpb⟩
      have hanot : ¬ ∃ cs2, s.pa = TaskPhase.sending cs2 := by
        rintro ⟨cs2, hcs2⟩
        have := (hsa ⟨cs2, hcs2⟩).1
        rw [hlock] at this
        have := Option.some.inj this
        exact TaskId.noConfusion this
      refine ⟨xa, xb ++ [c], Or.inl ?_, ?_, ?_, ?_, ?_, ?_, ?_⟩
      · show s.trace ++ [(TaskId.tb, c)] = tagged TaskId.ta xa ++ tagged TaskId.tb (xb ++ [c])
        rw [htr, tagged_append]
        simp [tagged]
      · intro hw
        exact hwa hw
      · rintro ⟨cs2, hcs2⟩
        exact TaskPhase.noConfusion hcs2
      · rintro ⟨cs2, hcs2⟩
        exact absurd ⟨cs2, hcs2⟩ hanot
      · intro _
        refine ⟨hlock, ?_⟩
        show s.trace ++ [(TaskId.tb, c)] = tagged TaskId.ta xa ++ tagged TaskId.tb (xb ++ [c])
        rw [htr, tagged_append]
        simp [tagged]
      · intro hl
        have : TaskId.tb = TaskId.ta := Option.some.inj (hlock ▸ hl)
        exact TaskId.noConfusion this
      · intro _
        exact ⟨cs, rfl⟩
  | failB c cs hpb =>
      obtain ⟨hlock, htr⟩ := hsb ⟨c :: cs, hpb⟩
      have hanot : ¬ ∃ cs2, s.pa = TaskPhase.sending cs2 := by
        rintro ⟨cs2, hcs2⟩
        have := (hsa ⟨cs2, hcs2⟩).1
        rw [hlock] at this
        have := Option.some.inj this
        exact TaskId.noConfusion this
      refine ⟨xa, xb ++ [c], Or.inl ?_, ?_, ?_, ?_, ?_, ?_, ?_⟩
      · show s.trace ++ [(TaskId.tb, c)] = tagged TaskId.ta xa ++ tagged TaskId.tb (xb ++ [c])
        rw [htr, tagged_append]
        simp [tagged]
      · intro hw
        exact hwa hw
      · rintro ⟨cs2, hcs2⟩
        exact TaskPhase.noConfusion hcs2
      · rintro ⟨cs2, hcs2⟩
        exact absurd ⟨cs2, hcs2⟩ hanot
      · rintro ⟨cs2, hcs2⟩
        exact TaskPhase.noConfusion hcs2
      · intro hl
        exact Option.noConfusion hl
      · intro hl
        exact Option.noConfusion hl
  | releaseB hpb =>
      obtain ⟨hlock, htr⟩ := hsb ⟨[], hpb⟩
      have hanot : ¬ ∃ cs2, s.pa = TaskPhase.sending cs2 := by
        rintro ⟨cs2, hcs2⟩
        have := (hsa ⟨cs2, hcs2⟩).1
        rw [hlock] at this
        have := Option.some.inj this
        exact TaskId.noConfusion this
      refine ⟨xa, xb, Or.inl htr, ?_, ?_, ?_, ?_, ?_, ?_⟩
      · intro hw
        exact hwa hw
      · rintro ⟨cs2, hcs2⟩
        exact TaskPhase.noConfusion hcs2
      · rintro ⟨cs2, hcs2⟩
        exact absurd ⟨cs2, hcs2⟩ hanot
      · rintro ⟨cs2, hcs2⟩
        exact TaskPhase.noConfusion hcs2
      · intro hl
        exact Option.noConfusion hl
      · intro hl
        exact Option.noConfusion hl

theorem reach_schedInv {ca cb : List CmdNode} {s : Sched}
    (h : Reach (Sched.init ca cb) s) : SchedInv s := by
  induction h with
  | refl => exact schedInv_init ca cb
  | tail _ hstep ih => exact schedInv_step ih hstep

/- ============================================================
   Claim theorems
   ============================================================ -/

/-- C1 (amended): for every numeric value and every scale,
`closest_match_index` returns exactly the index described by the spec's rule
(the first entry strictly greater than the value, unless the previous entry
is strictly closer in absolute distance — then the previous index; on an
exact tie the higher index wins; `len(scale) - 1` when no entry exceeds the
value), and the spec's three examples hold; an absent (`None`) value behaves
as 0 whenever the scale's first entry is positive. -/
theorem c1_closest_match_index :
    (∀ (v : Int) (scale : List Int),
      closest_match_index (some v) scale = some (closestMatchIndexSpec v scale)) ∧
    closest_match_index (some 4) [1, 3, 5, 7] = some 2 ∧
    closest_match_index (some 8) [1, 3, 5, 7] = some 3 ∧
    closest_match_index (some 0) [1, 3, 5, 7] = some 0 ∧
    (∀ (a : Int) (l : List Int), 0 < a → closest_match_index none (a :: l) = some 0) :=
  ⟨closest_match_index_eq_spec, rfl, rfl, rfl, closest_match_index_none_headpos⟩

/-- C1 witness: the hypothesis-bearing clause instantiated at a concrete
positive-headed scale. -/
theorem c1_witness :
    (0 : Int) < 1 ∧ closest_match_index none [1, 3, 5, 7] = some 0 :=
  ⟨by decide, c1_closest_match_index.2.2.2.2 1 [3, 5, 7] (by decide)⟩

/-- C1 counterexample: on the strictly increasing scale `[0, 2]` an absent
value is *not* treated as 0 — treating it as 0 would return index 0, but the
code raises `TypeError` (modelled as `none`) at `value - prev_val`. -/
theorem c1_counterexample :
    closest_match_index none [0, 2] = none ∧ closest_match_index (some 0) [0, 2] = some 0 :=
  ⟨rfl, rfl⟩

/-- C2 (amended): when the target index is a scale boundary *and* the
computed delta is nonzero, the transmitted step count is overridden to the
scale length regardless of the starting index (shown on the plan and on a
full turn-on run emitting `len(scale)` pulses); a zero delta transmits
nothing (see the counterexample). -/
theorem c2_resync_override :
    (∀ (len : Nat) (oldIdx newIdx : Int),
      (newIdx = 0 ∨ newIdx = (len : Int) - 1) → oldIdx ≠ newIdx →
      stepPlan len oldIdx newIdx = some (decide (newIdx < oldIdx), len)) ∧
    lightTurnOn demoLightCfg ctrlTrue demoLightSt ⟨some (some 2700), none⟩ 0 =
      some ({ demoLightSt with colortemp := some 2700 }, 3,
            [CmdNode.leaf "W", CmdNode.leaf "W", CmdNode.leaf "W"]) :=
  ⟨stepPlan_boundary, rfl⟩

/-- C2 witness: a boundary target with nonzero delta yields `len` pulses. -/
theorem c2_witness :
    ((0 : Int) = 0 ∨ (0 : Int) = ((3 : Nat) : Int) - 1) ∧ (1 : Int) ≠ 0 ∧
    stepPlan 3 1 0 = some (decide ((0 : Int) < 1), 3) :=
  ⟨Or.inl rfl, by decide, c2_resync_override.1 3 1 0 (Or.inl rfl) (by decide)⟩

/-- C2 counterexample: a boundary target with *zero* delta transmits nothing
(`stepPlan` yields `none`, and the full turn-on from 2700 K to 2700 K on a
3-entry scale sends no pulses), not `len(scale)` pulses as claimed. -/
theorem c2_counterexample :
    stepPlan 3 0 0 = none ∧
    lightTurnOn demoLightCfg ctrlTrue { demoLightSt with colortemp := some 2700 }
      ⟨some (some 2700), none⟩ 0 =
      some ({ demoLightSt with colortemp := some 2700 }, 0, []) :=
  ⟨rfl, rfl⟩

/-- C3 (amended): for the fan and the media player, a failed transmission
aborts the sequence and leaves the tracked state (power, speed, direction,
oscillation, source, on_by_remote) unchanged with no notification, and only
a fully successful sequence (all controller calls in the window succeeded)
notifies; the light, by contrast, mutates its tracked fields before
transmitting and swallows controller errors (see the counterexample). -/
theorem c3_no_partial_state :
    (∀ (cmds : List (String × CmdNode)) (ps : Bool) (ctrl : Nat → Bool) (st : FanSt)
       (target speed direction : String) (oscillate : Bool) (calls : Nat),
      ctrl calls = false →
      (fanSendCommand cmds ps ctrl st target speed direction oscillate calls).st.state = st.state ∧
      (fanSendCommand cmds ps ctrl st target speed direction oscillate calls).st.speed = st.speed ∧
      (fanSendCommand cmds ps ctrl st target speed direction oscillate calls).st.direction = st.direction ∧
      (fanSendCommand cmds ps ctrl st target speed direction oscillate calls).st.oscillating = st.oscillating ∧
      (fanSendCommand cmds ps ctrl st target speed direction oscillate calls).st.onByRemote = st.onByRemote ∧
      (fanSendCommand cmds ps ctrl st target speed direction oscillate calls).notified = false) ∧
    (∀ (cmds : List (String × CmdNode)) (ps : Bool) (ctrl : Nat → Bool) (st : MpSt)
       (target : String) (paths : List (List String)) (calls : Nat),
      ((mpSendCommand cmds ps ctrl st target paths calls).notified = false →
        (mpSendCommand cmds ps ctrl st target paths calls).st.state = st.state ∧
        (mpSendCommand cmds ps ctrl st target paths calls).st.onByRemote = st.onByRemote ∧
        (mpSendCommand cmds ps ctrl st target paths calls).st.source = st.source) ∧
      (∀ j, calls ≤ j → j < (mpSendCommand cmds ps ctrl st target paths calls).calls →
        ctrl j = false →
        (mpSendCommand cmds ps ctrl st target paths calls).notified = false ∧
        (mpSendCommand cmds ps ctrl st target paths calls).calls = j + 1)) :=
  ⟨fanSendCommand_fail,
   fun cmds ps ctrl st target paths calls =>
     ⟨mpSendCommand_not_notified_preserves cmds ps ctrl st target paths calls,
      fun j hj1 hj2 hcf =>
        mpSendCommand_failed_call cmds ps ctrl st target paths calls j hj1 hj2 hcf⟩⟩

/-- C3 witness: the fan clause instantiated with a failing controller. -/
theorem c3_witness :
    ctrlFalse 0 = false ∧
    ((fanSendCommand [("off", CmdNode.leaf "OFF")] false ctrlFalse demoFanSt
        "off" "low" "forward" false 0).st.state = demoFanSt.state ∧
     (fanSendCommand [("off", CmdNode.leaf "OFF")] false ctrlFalse demoFanSt
        "off" "low" "forward" false 0).st.speed = demoFanSt.speed ∧
     (fanSendCommand [("off", CmdNode.leaf "OFF")] false ctrlFalse demoFanSt
        "off" "low" "forward" false 0).st.direction = demoFanSt.direction ∧
     (fanSendCommand [("off", CmdNode.leaf "OFF")] false ctrlFalse demoFanSt
        "off" "low" "forward" false 0).st.oscillating = demoFanSt.oscillating ∧
     (fanSendCommand [("off", CmdNode.leaf "OFF")] false ctrlFalse demoFanSt
        "off" "low" "forward" false 0).st.onByRemote = demoFanSt.onByRemote ∧
     (fanSendCommand [("off", CmdNode.leaf "OFF")] false ctrlFalse demoFanSt
        "off" "low" "forward" false 0).notified = false) :=
  ⟨rfl, c3_no_partial_state.1 [("off", CmdNode.leaf "OFF")] false ctrlFalse demoFanSt
    "off" "low" "forward" false 0 rfl⟩

/-- C3 counterexample: the light's turn-on with an all-failing controller
still flips the tracked power state from off to on, despite the only
transmission having raised — a partial/failed sequence mutates state. -/
theorem c3_counterexample :
    ctrlFalse 0 = false ∧ demoLightOff.state = "off" ∧
    lightTurnOn demoPowerCfg ctrlFalse demoLightOff ⟨none, none⟩ 0 =
      some ({ demoLightOff with state := "on" }, 1, [CmdNode.leaf "PWR_ON"]) :=
  ⟨rfl, rfl, rfl⟩

/-- C4 (amended): `resolve(["on"])` on `{"on": CODE_A, "off": CODE_B}` yields
`CODE_A`; `resolve(["off","x"])` fails naming `"off"` — the non-final key
whose value is a leaf and cannot be descended into — not `"x"`; a failing
path transmits nothing for that path, abandons the remaining paths, and a
non-notifying `_send_command` leaves the state record unchanged. -/
theorem c4_resolver :
    resolvePath demoTree ["on"] = Except.ok (some "CODE_A") ∧
    resolvePath demoTree ["off", "x"] = Except.error "off" ∧
    (∀ (cmds : List (String × CmdNode)) (ctrl : Nat → Bool) (keys : List String)
       (k : String) (rest : List (List String)) (calls : Nat) (tr : List CmdNode),
      resolvePath (CmdNode.dict cmds) keys = Except.error k →
      mpRunPaths cmds ctrl (keys :: rest) calls tr = (SendFlow.ret, calls, tr)) ∧
    (∀ (cmds : List (String × CmdNode)) (ps : Bool) (ctrl : Nat → Bool) (st : MpSt)
       (target : String) (paths : List (List String)) (calls : Nat),
      (mpSendCommand cmds ps ctrl st target paths calls).notified = false →
      (mpSendCommand cmds ps ctrl st target paths calls).st.state = st.state ∧
      (mpSendCommand cmds ps ctrl st target paths calls).st.onByRemote = st.onByRemote ∧
      (mpSendCommand cmds ps ctrl st target paths calls).st.source = st.source) := by
  refine ⟨rfl, rfl, ?_, mpSendCommand_not_notified_preserves⟩
  intro cmds ctrl keys k rest calls tr h
  rw [mpRunPaths, h]

/-- C4 witness: the abort clause instantiated on the example tree. -/
theorem c4_witness :
    resolvePath (CmdNode.dict [("on", CmdNode.leaf "CODE_A"), ("off", CmdNode.leaf "CODE_B")])
      ["off", "x"] = Except.error "off" ∧
    mpRunPaths [("on", CmdNode.leaf "CODE_A"), ("off", CmdNode.leaf "CODE_B")] ctrlTrue
      [["off", "x"]] 0 [] = (SendFlow.ret, 0, []) :=
  ⟨rfl, c4_resolver.2.2.1 [("on", CmdNode.leaf "CODE_A"), ("off", CmdNode.leaf "CODE_B")]
    ctrlTrue ["off", "x"] "off" [] 0 [] rfl⟩

/-- C4 counterexample: the diagnostic for `["off","x"]` names `"off"`, not
`"x"` as the claim states. -/
theorem c4_counterexample :
    resolvePath demoTree ["off", "x"] = Except.error "off" ∧
    resolvePath demoTree ["off", "x"] ≠ Except.error "x" := by
  refine ⟨rfl, ?_⟩
  intro h
  rw [show resolvePath demoTree ["off", "x"] = Except.error "off" from rfl] at h
  injection h with h2
  exact absurd h2 (by decide)

/-- C5 (amended): scheduling a verification check replaces any pending check
(only the latest expectation survives), and both the fan and the media
player schedule a check with expected = target whenever a power sensor is
configured and the target power state differs from the tracked one; the
light never schedules a check (see the counterexample). -/
theorem c5_verification_scheduling :
    (∀ (t : String) (st : EntSt),
      powerSensorCheckSchedule t st =
        { st with checkExpect := some t, checkActive := true }) ∧
    (∀ (cmds : List (String × CmdNode)) (ps : Bool) (ctrl : Nat → Bool) (st : FanSt)
       (target speed direction : String) (oscillate : Bool) (calls : Nat),
      ps = true → st.state ≠ target →
      (fanSendCommand cmds ps ctrl st target speed direction oscillate calls).st.checkExpect =
        some target ∧
      (fanSendCommand cmds ps ctrl st target speed direction oscillate calls).st.checkActive =
        true) ∧
    (∀ (cmds : List (String × CmdNode)) (ps : Bool) (ctrl : Nat → Bool) (st : MpSt)
       (target : String) (paths : List (List String)) (calls : Nat),
      ps = true → st.state ≠ target →
      (mpSendCommand cmds ps ctrl st target paths calls).st.checkExpect = some target ∧
      (mpSendCommand cmds ps ctrl st target paths calls).st.checkActive = true) :=
  ⟨powerSensorCheckSchedule_eq, fanSendCommand_schedules, mpSendCommand_schedules⟩

/-- C5 witness: the fan clause instantiated on a concrete off command. -/
theorem c5_witness :
    demoFanSt.state ≠ "off" ∧
    ((fanSendCommand [("off", CmdNode.leaf "OFF")] true ctrlTrue demoFanSt
        "off" "low" "forward" false 0).st.checkExpect = some "off" ∧
     (fanSendCommand [("off", CmdNode.leaf "OFF")] true ctrlTrue demoFanSt
        "off" "low" "forward" false 0).st.checkActive = true) :=
  ⟨by decide, c5_verification_scheduling.2.1 [("off", CmdNode.leaf "OFF")] true ctrlTrue
    demoFanSt "off" "low" "forward" false 0 rfl (by decide)⟩

/-- C5 counterexample: the light's turn-off—its power-state-changing
command—schedules nothing even with a power sensor configured: no pending
check exists afterwards, where the claim requires one with expected = off. -/
theorem c5_counterexample :
    demoPowerSensorCfg.powerSensor = true ∧ demoLightOn.state ≠ "off" ∧
    (lightTurnOff demoPowerSensorCfg ctrlTrue demoLightOn 0).1.checkExpect = none ∧
    (lightTurnOff demoPowerSensorCfg ctrlTrue demoLightOn 0).1.checkActive = false :=
  ⟨rfl, by decide, rfl, rfl⟩

/-- C6: a sensor event repeating the previous reading is a no-op; an ON
reading while the tracked state is not ON sets state to on and
`on_by_remote`; an OFF reading unconditionally clears `on_by_remote` and
forces the state to off. -/
theorem c6_power_sensor_events :
    (∀ (st : EntSt) (o : String), powerSensorChanged (some o) (some o) st = (st, false)) ∧
    (∀ (st : EntSt) (oldR : Option String), oldR ≠ some "on" → st.state ≠ "on" →
      powerSensorChanged oldR (some "on") st =
        ({ st with state := "on", onByRemote := true }, true)) ∧
    (∀ (st : EntSt) (oldR : Option String), oldR ≠ some "off" →
      powerSensorChanged oldR (some "off") st =
        ({ st with state := "off", onByRemote := false }, true)) := by
  refine ⟨?_, ?_, ?_⟩
  · intro st o
    simp [powerSensorChanged]
  · intro st oldR h1 h2
    simp [powerSensorChanged, h1, h2]
  · intro st oldR h1
    rcases st with ⟨s, obr, ce, ca⟩
    by_cases hs : s = "off"
    · subst hs
      simp [powerSensorChanged, h1]
    · simp [powerSensorChanged, h1, hs]

/-- C6 witness: an OFF reading received while on-by-remote still forces the
state to off and clears the flag. -/
theorem c6_witness :
    ((none : Option String) ≠ some "off") ∧
    powerSensorChanged none (some "off")
      { state := "on", onByRemote := true, checkExpect := none, checkActive := false } =
      ({ state := "off", onByRemote := false, checkExpect := none, checkActive := false },
        true) :=
  ⟨by decide,
   c6_power_sensor_events.2.2
     { state := "on", onByRemote := true, checkExpect := none, checkActive := false }
     none (by decide)⟩

/-- C7: when the scheduled check fires it disarms itself and clears the
stored expectation (never re-arming); if both the expectation and the
observed reading are in {on, off} and differ, it forces the tracked state to
the observed value and notifies; in every other case it changes neither the
state nor `on_by_remote` and does not notify. -/
theorem c7_verification_check :
    ∀ (st : EntSt) (observed : Option String),
      ((powerSensorCheckFire observed st).1.checkActive = false ∧
       (powerSensorCheckFire observed st).1.checkExpect = none) ∧
      ((st.checkExpect = some "on" ∨ st.checkExpect = some "off") →
       (observed = some "on" ∨ observed = some "off") →
       st.checkExpect ≠ observed →
       some (powerSensorCheckFire observed st).1.state = observed ∧
       (powerSensorCheckFire observed st).1.onByRemote = st.onByRemote ∧
       (powerSensorCheckFire observed st).2 = true) ∧
      (¬ ((st.checkExpect = some "on" ∨ st.checkExpect = some "off") ∧
          (observed = some "on" ∨ observed = some "off") ∧ st.checkExpect ≠ observed) →
       (powerSensorCheckFire observed st).1.state = st.state ∧
       (powerSensorCheckFire observed st).1.onByRemote = st.onByRemote ∧
       (powerSensorCheckFire observed st).2 = false) := by
  intro st observed
  unfold powerSensorCheckFire
  by_cases hcond : (st.checkExpect = some "on" ∨ st.checkExpect = some "off") ∧
      (observed = some "on" ∨ observed = some "off") ∧ st.checkExpect ≠ observed
  · rw [if_pos hcond]
    refine ⟨⟨rfl, rfl⟩, ?_, ?_⟩
    · intro _ hobs _
      refine ⟨?_, rfl, rfl⟩
      cases hobs with
      | inl h => rw [h]; rfl
      | inr h => rw [h]; rfl
    · intro hno
      exact absurd hcond hno
  · rw [if_neg hcond]
    refine ⟨⟨rfl, rfl⟩, ?_, ?_⟩
    · intro h1 h2 h3
      exact absurd ⟨h1, h2, h3⟩ hcond
    · intro _
      exact ⟨rfl, rfl, rfl⟩

/-- C7 witness: expected on, observed off — the fired check forces the state
to the observed value, notifies, and does not re-arm. -/
theorem c7_witness :
    (((some "on" : Option String) = some "on" ∨ (some "on" : Option String) = some "off") ∧
     ((some "off" : Option String) = some "on" ∨ (some "off" : Option String) = some "off") ∧
     (some "on" : Option String) ≠ some "off") ∧
    (some (powerSensorCheckFire (some "off")
        { state := "on", onByRemote := false, checkExpect := some "on",
          checkActive := true }).1.state = some "off" ∧
     (powerSensorCheckFire (some "off")
        { state := "on", onByRemote := false, checkExpect := some "on",
          checkActive := true }).1.onByRemote = false ∧
     (powerSensorCheckFire (some "off")
        { state := "on", onByRemote := false, checkExpect := some "on",
          checkActive := true }).2 = true) :=
  ⟨⟨Or.inl rfl, Or.inr rfl, by decide⟩,
   (c7_verification_check
      { state := "on", onByRemote := false, checkExpect := some "on", checkActive := true }
      (some "off")).2.1 (Or.inl rfl) (Or.inr rfl) (by decide)⟩

/-- C8: a step plan from an index to itself is always empty (`steps == 0`
suppresses transmission), and the light's turn-on targeting the currently
tracked color temperature over the relative-step path transmits nothing and
leaves the whole tracked state unchanged. -/
theorem c8_idempotent_step_plan :
    (∀ (len : Nat) (i : Int), stepPlan len i i = none) ∧
    (∀ (cfg : LightCfg) (ctrl : Nat → Bool) (st : LightSt) (calls : Nat) (i : Int),
      st.state = "on" → "color_temp" ∈ cfg.colorModes → cfg.colortemps ≠ [] →
      closest_match_index st.colortemp cfg.colortemps = some i →
      (∀ e : Int, directLookup cfg.commands "colorTemperature" (toString e) = none) →
      lightTurnOn cfg ctrl st ⟨some st.colortemp, none⟩ calls = some (st, calls, [])) :=
  ⟨stepPlan_self,
   fun cfg ctrl st calls i h1 h2 h3 h4 h5 =>
     lightTurnOn_selfTarget cfg ctrl st calls i h1 h2 h3 h4 h5⟩

/-- C8 witness: the demo light asked for its own tracked 4000 K sends nothing
and keeps its state. -/
theorem c8_witness :
    demoLightSt.state = "on" ∧ ("color_temp" ∈ demoLightCfg.colorModes) ∧
    demoLightCfg.colortemps ≠ [] ∧
    closest_match_index demoLightSt.colortemp demoLightCfg.colortemps = some 1 ∧
    lightTurnOn demoLightCfg ctrlTrue demoLightSt ⟨some demoLightSt.colortemp, none⟩ 0 =
      some (demoLightSt, 0, []) :=
  ⟨rfl, by decide, by decide, rfl,
   c8_idempotent_step_plan.2 demoLightCfg ctrlTrue demoLightSt 0 1 rfl (by decide)
     (by decide) rfl (fun _ => rfl)⟩

/-- C9: under the cooperative scheduler with the per-device exclusive lock
(every transmission path sends only inside the `async with self._temp_lock`
block and releases on every exit, including a failing send), the codes of
two concurrent sequences never interleave: every reachable trace is one
task's codes followed by the other's. -/
theorem c9_no_interleaving (ca cb : List CmdNode) (s : Sched)
    (h : Reach (Sched.init ca cb) s) :
    ∃ u v, s.trace = u ++ v ∧
      ((∀ e ∈ u, e.1 = TaskId.ta) ∧ (∀ e ∈ v, e.1 = TaskId.tb) ∨
       (∀ e ∈ u, e.1 = TaskId.tb) ∧ (∀ e ∈ v, e.1 = TaskId.ta)) := by
  obtain ⟨xa, xb, hsplit, -, -, -, -, -, -⟩ := reach_schedInv h
  cases hsplit with
  | inl htr =>
      exact ⟨tagged TaskId.ta xa, tagged TaskId.tb xb, htr,
        Or.inl ⟨fun e he => mem_tagged he, fun e he => mem_tagged he⟩⟩
  | inr htr =>
      exact ⟨tagged TaskId.tb xb, tagged TaskId.ta xa, htr,
        Or.inr ⟨fun e he => mem_tagged he, fun e he => mem_tagged he⟩⟩

/-- C9 witness: a concrete complete run — A acquires, sends, releases, then B
does — whose trace splits into A's block then B's. -/
theorem c9_witness :
    ∃ u v,
      ([(TaskId.ta, CmdNode.leaf "X"), (TaskId.tb, CmdNode.leaf "Y")] :
        List (TaskId × CmdNode)) = u ++ v ∧
      ((∀ e ∈ u, e.1 = TaskId.ta) ∧ (∀ e ∈ v, e.1 = TaskId.tb) ∨
       (∀ e ∈ u, e.1 = TaskId.tb) ∧ (∀ e ∈ v, e.1 = TaskId.ta)) := by
  have t1 : SchedStep (Sched.init [CmdNode.leaf "X"] [CmdNode.leaf "Y"])
      { pa := TaskPhase.sending [CmdNode.leaf "X"], pb := TaskPhase.waiting [CmdNode.leaf "Y"],
        lock := some TaskId.ta, trace := [] } :=
    SchedStep.acquireA _ _ rfl rfl
  have t2 : SchedStep
      { pa := TaskPhase.sending [CmdNode.leaf "X"], pb := TaskPhase.waiting [CmdNode.leaf "Y"],
        lock := some TaskId.ta, trace := [] }
      { pa := TaskPhase.sending [], pb := TaskPhase.waiting [CmdNode.leaf "Y"],
        lock := some TaskId.ta, trace := [(TaskId.ta, CmdNode.leaf "X")] } :=
    SchedStep.sendA _ _ _ rfl
  have t3 : SchedStep
      { pa := TaskPhase.sending [], pb := TaskPhase.waiting [CmdNode.leaf "Y"],
        lock := some TaskId.ta, trace := [(TaskId.ta, CmdNode.leaf "X")] }
      { pa := TaskPhase.finished, pb := TaskPhase.waiting [CmdNode.leaf "Y"],
        lock := none, trace := [(TaskId.ta, CmdNode.leaf "X")] } :=
    SchedStep.releaseA _ rfl
  have t4 : SchedStep
      { pa := TaskPhase.finished, pb := TaskPhase.waiting [CmdNode.leaf "Y"],
        lock := none, trace := [(TaskId.ta, CmdNode.leaf "X")] }
      { pa := TaskPhase.finished, pb := TaskPhase.sending [CmdNode.leaf "Y"],
        lock := some TaskId.tb, trace := [(TaskId.ta, CmdNode.leaf "X")] } :=
    SchedStep.acquireB _ _ rfl rfl
  have t5 : SchedStep
      { pa := TaskPhase.finished, pb := TaskPhase.sending [CmdNode.leaf "Y"],
        lock := some TaskId.tb, trace := [(TaskId.ta, CmdNode.leaf "X")] }
      { pa := TaskPhase.finished, pb := TaskPhase.sending [],
        lock := some TaskId.tb,
        trace := [(TaskId.ta, CmdNode.leaf "X"), (TaskId.tb, CmdNode.leaf "Y")] } :=
    SchedStep.sendB _ _ _ rfl
  have t6 : SchedStep
      { pa := TaskPhase.finished, pb := TaskPhase.sending [],
        lock := some TaskId.tb,
        trace := [(TaskId.ta, CmdNode.leaf "X"), (TaskId.tb, CmdNode.leaf "Y")] }
      { pa := TaskPhase.finished, pb := TaskPhase.finished,
        lock := none,
        trace := [(TaskId.ta, CmdNode.leaf "X"), (TaskId.tb, CmdNode.leaf "Y")] } :=
    SchedStep.releaseB _ rfl
  have h : Reach (Sched.init [CmdNode.leaf "X"] [CmdNode.leaf "Y"])
      { pa := TaskPhase.finished, pb := TaskPhase.finished,
        lock := none,
        trace := [(TaskId.ta, CmdNode.leaf "X"), (TaskId.tb, CmdNode.leaf "Y")] } :=
    Reach.tail (Reach.tail (Reach.tail (Reach.tail (Reach.tail (Reach.tail
      Reach.refl t1) t2) t3) t4) t5) t6
  exact c9_no_interleaving [CmdNode.leaf "X"] [CmdNode.leaf "Y"] _ h

/-- C10: `precision_round` at precision 0.5 computes `round((x*2)/2.0, 1)`,
which is exactly `round(x, 1)` — the 0.1 behavior — so 3.3 stays 3.3 rather
than rounding to the nearest half (3.5); and every precision other than 0.1,
0.5, 1 that is not greater than 1 returns `None`. -/
theorem c10_precision_round :
    (∀ x : ℚ, precision_round x (1/2) = precision_round x (1/10)) ∧
    precision_round (33/10) (1/2) = some (33/10) ∧
    (33/10 : ℚ) ≠ 7/2 ∧
    (∀ p : ℚ, p ≠ 1/10 → p ≠ 1/2 → p ≠ 1 → ¬ (1 < p) → ∀ x : ℚ,
      precision_round x p = none) := by
  refine ⟨?_, ?_, by norm_num, ?_⟩
  · intro x
    unfold precision_round
    rw [if_neg (by norm_num : ((1 : ℚ)/2) ≠ 1/10), if_pos rfl, if_pos rfl]
    rw [show x * 2 / 2 = x from by field_simp]
  · unfold precision_round
    rw [if_neg (by norm_num : ((1 : ℚ)/2) ≠ 1/10), if_pos rfl]
    norm_num [pyRoundTo1, roundHalfEven]
  · intro p h1 h2 h3 h4 x
    unfold precision_round
    rw [if_neg h1, if_neg h2, if_neg h3, if_neg h4]

/-- C10 witness: precision 0.2 — neither 0.1, 0.5, 1 nor above 1 — yields
`None`. -/
theorem c10_witness :
    ((1 : ℚ)/5 ≠ 1/10) ∧ ((1 : ℚ)/5 ≠ 1/2) ∧ ((1 : ℚ)/5 ≠ 1) ∧ ¬ ((1 : ℚ) < 1/5) ∧
    precision_round 0 (1/5) = none :=
  ⟨by norm_num, by norm_num, by norm_num, by norm_num,
   c10_precision_round.2.2.2 (1/5) (by norm_num) (by norm_num) (by norm_num)
     (by norm_num) 0⟩
